import Mathlib

/-!
Verification of the geochart data-to-chart transformation pipeline.

This file gives a shallow embedding, in Lean 4, of the pipeline components of
the geochart repository: the query where-clause builder (`chart-parsing.ts`),
the color/visibility registries (`processDatasets` / `processLabels` in the
chart component), the slider record filter
(`processLoadingRecordsFilteringFirst`), the axis range resolver
(`processAxes`), the dataset/series builders (`createDatasetsLineBar`,
`createDatasetsPieDoughnut`, `createDataCompressedForPieDoughnut`,
`createChartJSData`) and the datasource fetch lifecycle
(`fetchDatasourceItems`), together with theorems about them.

Modelling conventions:
- JavaScript scalar values are the inductive `JSVal` (number, string, boolean,
  null, undefined); numbers are modelled as rationals (floating point rounding
  plays no role in the verified properties).
- A record is an ordered association list from field names to `JSVal`;
  property access on a missing field yields `undefined`, as in JavaScript.
- JavaScript objects used as string-keyed dictionaries (the color registries,
  the `categoriesRead` accumulator) are association lists in insertion order,
  which is the enumeration order of `Object.keys` for non-index keys.
- Host functionality that the code calls out to is parameterised: `Date`
  parsing of strings and `Number` coercion of strings are fields of a
  `HostEnv` argument.  An invalid date (`NaN` time value) is `none`.
- `String.prototype.localeCompare` is modelled as code-point lexicographic
  comparison (`localeCompare`), adequate for the string data these claims use.
- Thrown exceptions (`TypeError` on dereferencing a missing registry entry,
  explicit `throw Error(...)`) are modelled with `Except String`.
- `Array.prototype.sort` is modelled as a stable insertion sort
  (`sortWithCmp`); ECMAScript requires sort stability, and for the
  consistent comparators arising in the theorems below any stable sort
  computes the same list.
-/

namespace GeoChart

/-- Model of a JavaScript scalar value as stored in a flat record:
number, string, boolean, null or undefined. -/
inductive JSVal where
  | num (q : ℚ)
  | str (s : String)
  | boolV (b : Bool)
  | null
  | undef
deriving DecidableEq

/-- A flat record: an ordered association list from field names to scalar
values (the `TypeJsonObject` records the pipeline operates on). -/
abbrev RecordJS := List (String × JSVal)

/-- JavaScript property access `rec[name]`: the first binding of the field,
or `undefined` when the field is absent. -/
def getProp (rec : RecordJS) (name : String) : JSVal :=
  match rec.find? (fun p => p.1 = name) with
  | some p => p.2
  | none => JSVal.undef

/-- JavaScript truthiness of a scalar value. -/
def jsTruthy : JSVal → Bool
  | JSVal.num q => q ≠ 0
  | JSVal.str s => s ≠ ""
  | JSVal.boolV b => b
  | JSVal.null => false
  | JSVal.undef => false

/-- JavaScript `ToString` coercion of a scalar value, as performed when the
value is used as an object key or interpolated into a template string.
Non-integer numbers are rendered with Lean's rational notation; the verified
claims only exercise string and integer keys, where this agrees with
JavaScript. -/
def jsKeyString : JSVal → String
  | JSVal.num q => if q.den = 1 then toString q.num else toString q
  | JSVal.str s => s
  | JSVal.boolV b => if b then "true" else "false"
  | JSVal.null => "null"
  | JSVal.undef => "undefined"

/-- Host-provided functionality the pipeline calls out to: `new Date(s)` on a
string (`none` models an invalid date, i.e. a `NaN` time value) and `Number`
coercion of a string (`none` models `NaN`). -/
structure HostEnv where
  parseDate : String → Option ℚ
  strNum : String → Option ℚ

/-- A trivial host environment for concrete evaluations: every string fails
to parse as a date or number. -/
def trivialEnv : HostEnv := ⟨fun _ => none, fun _ => none⟩

/-- The time value of `new Date(v)` for a scalar `v`: numbers are taken as
millisecond values, strings are parsed by the host, booleans and null coerce
to 0/1, and `undefined` gives an invalid date (`none`). -/
def jsDateOf (env : HostEnv) : JSVal → Option ℚ
  | JSVal.num q => some q
  | JSVal.str s => env.parseDate s
  | JSVal.boolV b => some (if b then 1 else 0)
  | JSVal.null => some 0
  | JSVal.undef => none

/-- JavaScript `ToNumber` coercion of a scalar (`none` models `NaN`). -/
def jsToNumber (env : HostEnv) : JSVal → Option ℚ
  | JSVal.num q => some q
  | JSVal.str s => env.strNum s
  | JSVal.boolV b => some (if b then 1 else 0)
  | JSVal.null => some 0
  | JSVal.undef => none

/-- Source `src/utils.ts` `isNumber`: true exactly when the value is a
(non-`NaN`) number. -/
def isNumber : JSVal → Bool
  | JSVal.num _ => true
  | _ => false

/-- Source `src/utils.ts` `getColorFromPalette`: when a palette is supplied,
index into it modulo its length (an empty palette yields `undefined`, i.e.
`none`, since `index % 0` is `NaN` in JavaScript); otherwise fall back to the
default color. -/
def getColorFromPalette (colorPalette : Option (List String)) (index : ℕ)
    (defaultColor : String) : Option String :=
  match colorPalette with
  | some pal => pal.get? (index % pal.length)
  | none => some defaultColor

/-- Code-point lexicographic comparison of character lists, the model of the
host's locale string order. -/
def charListLt : List Char → List Char → Bool
  | [], [] => false
  | [], _ :: _ => true
  | _ :: _, [] => false
  | a :: as, b :: bs =>
    if a.toNat < b.toNat then true
    else if b.toNat < a.toNat then false
    else charListLt as bs

/-- Model of `String.prototype.localeCompare`: negative, zero or positive
according to the lexicographic order of the two strings. -/
def localeCompare (a b : String) : ℚ :=
  if charListLt a.data b.data then -1
  else if charListLt b.data a.data then 1
  else 0

theorem charListLt_asymm :
    ∀ {a b : List Char}, charListLt a b = true → charListLt b a = false := by
  intro a
  induction a with
  | nil => intro b h; cases b <;> simp_all [charListLt]
  | cons x xs ih =>
    intro b h
    cases b with
    | nil => simp [charListLt] at h
    | cons y ys =>
      simp only [charListLt] at h ⊢
      by_cases hxy : x.toNat < y.toNat
      · have : ¬ y.toNat < x.toNat := lt_asymm hxy
        simp [hxy, this]
      · by_cases hyx : y.toNat < x.toNat
        · simp [hxy, hyx] at h
        · simp only [hxy, hyx, if_false, if_neg] at h ⊢
          simp [hxy, hyx, ih h]

theorem charListLt_nlt_trans :
    ∀ {a b c : List Char}, charListLt a b = false → charListLt b c = false →
      charListLt a c = false := by
  intro a
  induction a with
  | nil =>
    intro b c hab _
    cases b with
    | nil =>
      cases c with
      | nil => simp [charListLt]
      | cons z zs => simp_all [charListLt]
    | cons y ys => simp [charListLt] at hab
  | cons x xs ih =>
    intro b c hab hbc
    cases b with
    | nil =>
      cases c with
      | nil => simp [charListLt]
      | cons z zs => simp [charListLt] at hbc
    | cons y ys =>
      cases c with
      | nil => simp [charListLt]
      | cons z zs =>
        simp only [charListLt] at hab hbc ⊢
        by_cases hxy : x.toNat < y.toNat
        · simp [hxy] at hab
        · by_cases hyz : y.toNat < z.toNat
          · simp [hyz] at hbc
          · have hxz : ¬ x.toNat < z.toNat := fun h =>
              hxy (lt_of_lt_of_le h (le_of_not_lt hyz))
            by_cases hzx : z.toNat < x.toNat
            · simp [hxz, hzx]
            · have hyx : ¬ y.toNat < x.toNat := fun h =>
                hzx (lt_of_le_of_lt (le_of_not_lt hyz) h)
              have hzy : ¬ z.toNat < y.toNat := fun h =>
                hzx (lt_of_lt_of_le h (le_of_not_lt hxy))
              simp only [hxy, hyx, if_false, if_neg] at hab
              simp only [hyz, hzy, if_false, if_neg] at hbc
              simp [hxz, hzx, ih hab hbc]

/-! ## Query where-clause construction (`chart-parsing.ts`) -/

/-- Characters that `encodeURIComponent` leaves unescaped: ASCII
alphanumerics and `-_.!~*'()`. -/
def isUnreservedChar (c : Char) : Bool :=
  c.isAlpha || c.isDigit || "-_.!~*'()".data.contains c

/-- Uppercase hexadecimal digit for a value below 16. -/
def hexDigit (n : ℕ) : Char :=
  if n < 10 then Char.ofNat ('0'.toNat + n) else Char.ofNat ('A'.toNat + (n - 10))

/-- UTF-8 byte sequence of a character (as natural numbers below 256). -/
def utf8Bytes (c : Char) : List ℕ :=
  let n := c.toNat
  if n < 0x80 then [n]
  else if n < 0x800 then [0xC0 + n / 64, 0x80 + n % 64]
  else if n < 0x10000 then [0xE0 + n / 4096, 0x80 + n / 64 % 64, 0x80 + n % 64]
  else [0xF0 + n / 262144, 0x80 + n / 4096 % 64, 0x80 + n / 64 % 64, 0x80 + n % 64]

/-- Percent-encoding of a single character: each UTF-8 byte as `%XX`. -/
def percentEncodeChar (c : Char) : List Char :=
  (utf8Bytes c).foldr (fun b acc => '%' :: hexDigit (b / 16) :: hexDigit (b % 16) :: acc) []

/-- Model of the host `encodeURIComponent`. -/
def encodeURIComponent (s : String) : String :=
  ⟨s.data.foldr (fun c acc =>
    if isUnreservedChar c then c :: acc else percentEncodeChar c ++ acc) []⟩

/-- A where-clause fragment of a query descriptor (`GeoChartQueryOptionClause`).
The source calls the first optional string `prefix`; it is named `prefixStr`
here (with `suffixStr` to match) because `prefix` is reserved in this
development. -/
structure GeoChartQueryOptionClause where
  field : String
  prefixStr : Option String
  suffixStr : Option String
  valueIs : Option String
  valueFrom : Option String
deriving DecidableEq

/-- Resolution of `sourceItem[urlOpt.valueFrom]`, guarded by the JavaScript
truthiness of `urlOpt.valueFrom` and of `sourceItem`. -/
def clauseValueFromSource (c : GeoChartQueryOptionClause)
    (sourceItem : Option RecordJS) : Option JSVal :=
  match c.valueFrom, sourceItem with
  | some f, some item => if f = "" then none else some (getProp item f)
  | _, _ => none

/-- Removal of a single trailing `" AND "`, the model of
`replace(/ AND $/, '')`. -/
def stripTrailingAnd (s : String) : String :=
  let cs := s.data
  if cs.length ≥ 5 ∧ cs.drop (cs.length - 5) = " AND ".data then
    ⟨cs.take (cs.length - 5)⟩
  else s

/-- Source `buildQueryWhereClause` (`chart-parsing.ts`): for each clause,
resolve a value from `valueIs` or from the source item via `valueFrom` (a
falsy `valueIs` falls through to `valueFrom`); skip the clause when no truthy
value resolves; otherwise wrap the value in the clause's prefix/suffix,
percent-encode it, and append `field=value AND `; finally trim the trailing
`AND`. -/
def buildQueryWhereClause (whereClauses : List GeoChartQueryOptionClause)
    (sourceItem : Option RecordJS) : String :=
  let acc := whereClauses.foldl (fun acc c =>
    let val : Option JSVal :=
      match c.valueIs with
      | some v => if v = "" then clauseValueFromSource c sourceItem else some (JSVal.str v)
      | none => clauseValueFromSource c sourceItem
    match val with
    | some v =>
      if jsTruthy v then
        acc ++ c.field ++ "=" ++
          encodeURIComponent
            ((c.prefixStr.getD "") ++ jsKeyString v ++ (c.suffixStr.getD "")) ++
          " AND "
      else acc
    | none => acc) ""
  stripTrailingAnd acc

/-- The where-clause list of the esri query scenario. -/
def esriScenarioClauses : List GeoChartQueryOptionClause :=
  [{ field := "Location_Emplacement", prefixStr := some "'", suffixStr := some "'",
     valueIs := none, valueFrom := some "Location_Emplacement" }]

/-- The source item of the esri query scenario. -/
def esriScenarioSourceItem : RecordJS :=
  [("Location_Emplacement", JSVal.str "Saskatoon")]

/-- C9: given where-clauses
`[{field:"Location_Emplacement", prefix:"'", valueFrom:"Location_Emplacement", suffix:"'"}]`
and source item `{Location_Emplacement:"Saskatoon"}`, the where-clause
builder returns exactly `Location_Emplacement='Saskatoon'` — the value is
wrapped in the quote prefix/suffix, URL-encoding leaves it unchanged, and no
trailing `AND` remains. -/
theorem esri_where_clause_scenario :
    buildQueryWhereClause esriScenarioClauses (some esriScenarioSourceItem) =
      "Location_Emplacement='Saskatoon'" := by
  decide

/-! ## Chart data model (`chart-types.ts` shapes used by the pipeline) -/

/-- The four supported chart kinds. -/
inductive ChartKind where
  | line
  | bar
  | pie
  | doughnut
deriving DecidableEq

/-- Axis semantic types. -/
inductive AxisType where
  | linear
  | logarithmic
  | category
  | time
  | timeseries
deriving DecidableEq

/-- Axis configuration: the record field to read and the optional semantic
type. -/
structure AxisCfg where
  property : String
  type : Option AxisType
deriving DecidableEq

/-- Categorization block: the record field whose distinct values become
categories. -/
structure CategoryCfg where
  property : String
deriving DecidableEq

/-- The `geochart` options block (the fields the dataset builders read). -/
structure GeochartBlock where
  xAxis : AxisCfg
  yAxis : AxisCfg
  tension : Option ℚ
  borderWidth : Option ℚ
deriving DecidableEq

/-- The chart configuration (the fields the dataset builders read). -/
structure GeoChartConfig where
  chart : ChartKind
  category : Option CategoryCfg
  geochart : GeochartBlock
deriving DecidableEq

/-- Truthiness of `chartConfig.category?.property`. -/
def hasCategoryProp (cfg : GeoChartConfig) : Bool :=
  match cfg.category with
  | some c => c.property ≠ ""
  | none => false

/-- Whether an axis type is `time` or `timeseries`. -/
def axisIsTemporal (a : AxisCfg) : Bool :=
  a.type = some AxisType.time || a.type = some AxisType.timeseries

/-- An x value of a chart point: either a scalar carried over unchanged, or a
`Date` object with its time value (`none` for an invalid date). -/
inductive XVal where
  | val (v : JSVal)
  | date (t : Option ℚ)
deriving DecidableEq

/-- A chart point (`GeoChartXYData`): an x value and the raw y value. -/
structure GeoChartXYData where
  x : XVal
  y : JSVal
deriving DecidableEq

/-- An element of a dataset's `data` array: an x/y point for line/bar charts,
or a scalar slot (null or the raw y value) for pie/doughnut compressed data. -/
inductive DataVal where
  | pt (p : GeoChartXYData)
  | scalar (v : JSVal)
deriving DecidableEq

/-- The `stepped` setting of a line dataset (`StepsPossibilities`): a boolean
or one of the step-mode strings. -/
inductive StepsVal where
  | boolS (b : Bool)
  | strS (s : String)
deriving DecidableEq

/-- A dataset color argument: a single color string or an array of colors
(each possibly `undefined`). -/
inductive ColorArg where
  | strC (s : String)
  | arrC (l : List (Option String))
deriving DecidableEq

/-- JavaScript truthiness of an optional color argument (an array is always
truthy, a string is truthy when non-empty). -/
def colorArgTruthy : Option ColorArg → Bool
  | none => false
  | some (ColorArg.strC s) => s ≠ ""
  | some (ColorArg.arrC _) => true

/-- A ChartJS dataset as built by the pipeline. -/
structure ChartDatasetM where
  label : Option String
  data : List DataVal
  backgroundColor : Option ColorArg
  borderColor : Option ColorArg
  borderWidth : Option ℚ
  stepped : Option StepsVal
  tension : Option ℚ
deriving DecidableEq

/-- A ChartJS data object: the shared label axis and the datasets. -/
structure ChartDataM where
  labels : List JSVal
  datasets : List ChartDatasetM
deriving DecidableEq

/-! ## Model of `Array.prototype.sort`

ECMAScript requires `sort` to be stable; it is modelled as a stable insertion
sort parameterised by the numeric comparator, which computes the same list as
the host sort for every consistent comparator. -/

/-- Stable insertion of an element in front of the first position whose
element does not compare strictly smaller. -/
def insertCmp (cmp : α → α → ℚ) (a : α) : List α → List α
  | [] => [a]
  | b :: l => if cmp a b ≤ 0 then a :: b :: l else b :: insertCmp cmp a l

/-- Stable sort by a numeric comparator. -/
def sortWithCmp (cmp : α → α → ℚ) (l : List α) : List α :=
  l.foldr (insertCmp cmp) []

theorem mem_insertCmp {cmp : α → α → ℚ} {a x : α} :
    ∀ {l : List α}, x ∈ insertCmp cmp a l ↔ x = a ∨ x ∈ l := by
  intro l
  induction l with
  | nil => simp [insertCmp]
  | cons b t ih =>
    by_cases h : cmp a b ≤ 0
    · simp [insertCmp, h]
    · simp only [insertCmp, h, if_false, if_neg, List.mem_cons, ih]
      tauto

theorem mem_sortWithCmp {cmp : α → α → ℚ} {x : α} :
    ∀ {l : List α}, x ∈ sortWithCmp cmp l ↔ x ∈ l := by
  intro l
  induction l with
  | nil => simp [sortWithCmp]
  | cons b t ih =>
    simp only [sortWithCmp, List.foldr] at ih ⊢
    rw [mem_insertCmp, ih, List.mem_cons]

theorem insertCmp_pairwise {α β : Type _} {cmp : α → α → ℚ} (k : α → β)
    (le : β → β → Prop) (htrans : ∀ {u v w : β}, le u v → le v w → le u w)
    {a : α} :
    ∀ {l : List α},
      (∀ b ∈ l, (cmp a b ≤ 0 → le (k a) (k b)) ∧ (¬ cmp a b ≤ 0 → le (k b) (k a))) →
      l.Pairwise (fun u v => le (k u) (k v)) →
      (insertCmp cmp a l).Pairwise (fun u v => le (k u) (k v)) := by
  intro l
  induction l with
  | nil => intro _ _; simp [insertCmp]
  | cons b t ih =>
    intro hcond hl
    rcases List.pairwise_cons.mp hl with ⟨hbt, ht⟩
    by_cases h : cmp a b ≤ 0
    · have hab : le (k a) (k b) := (hcond b (by simp) ).1 h
      simp only [insertCmp, h, if_true, if_pos]
      refine List.pairwise_cons.mpr ⟨?_, hl⟩
      intro c hc
      rcases List.mem_cons.mp hc with rfl | hc
      · exact hab
      · exact htrans hab (hbt c hc)
    · simp only [insertCmp, h, if_false, if_neg]
      refine List.pairwise_cons.mpr ⟨?_, ?_⟩
      · intro c hc
        rcases mem_insertCmp.mp hc with rfl | hc
        · exact (hcond b (by simp)).2 h
        · exact hbt c hc
      · exact ih (fun c hc => hcond c (List.mem_cons_of_mem _ hc)) ht

theorem sortWithCmp_pairwise {α β : Type _} {cmp : α → α → ℚ} (k : α → β)
    (le : β → β → Prop) (htrans : ∀ {u v w : β}, le u v → le v w → le u w) :
    ∀ {l : List α},
      (∀ a ∈ l, ∀ b ∈ l,
        (cmp a b ≤ 0 → le (k a) (k b)) ∧ (¬ cmp a b ≤ 0 → le (k b) (k a))) →
      (sortWithCmp cmp l).Pairwise (fun u v => le (k u) (k v)) := by
  intro l
  induction l with
  | nil => intro _; simp [sortWithCmp]
  | cons a t ih =>
    intro hcond
    show (insertCmp cmp a (sortWithCmp cmp t)).Pairwise _
    refine insertCmp_pairwise k le htrans ?_ ?_
    · intro b hb
      exact hcond a (by simp) b (List.mem_cons_of_mem _ (mem_sortWithCmp.mp hb))
    · exact ih (fun u hu v hv =>
        hcond u (List.mem_cons_of_mem _ hu) v (List.mem_cons_of_mem _ hv))

/-! ## The two sort passes of `chart-parsing.ts` -/

/-- Reading `.x` of a `data` element after the source's cast to an x/y point.
For a pie/doughnut scalar slot the cast makes `.x` read `undefined` (a null
slot would throw in JavaScript; that path is not exercised by the theorems
below and is modelled as `undefined` too). -/
def dataX : DataVal → XVal
  | DataVal.pt p => p.x
  | DataVal.scalar _ => XVal.val JSVal.undef

/-- JavaScript truthiness of an x value (any `Date` object is truthy, even an
invalid one). -/
def xTruthy : XVal → Bool
  | XVal.val v => jsTruthy v
  | XVal.date _ => true

/-- Whether `isNumber` holds of an x value (a `Date` is not a number). -/
def isNumberX : XVal → Bool
  | XVal.val v => isNumber v
  | XVal.date _ => false

/-- The numeric value of an x value under `ToNumber` coercion (a `Date`
coerces to its time value; `none` is `NaN`). -/
def xNum (env : HostEnv) : XVal → Option ℚ
  | XVal.val v => jsToNumber env v
  | XVal.date t => t

/-- The plain number held by a numeric x value (only used when `isNumberX`). -/
def xNumPlain : XVal → ℚ
  | XVal.val (JSVal.num q) => q
  | _ => 0

/-- String coercion of an x value for the `localeCompare` fallback branch.
In JavaScript this branch calls `.localeCompare` on the raw value, which
throws for non-strings; the model coerces instead (the branch is reached with
non-strings only outside the verified properties). -/
def xStr : XVal → String
  | XVal.val v => jsKeyString v
  | XVal.date _ => "[Date]"

/-- Strict `<` on JavaScript numbers where `none` models `NaN` (every
comparison against `NaN` is false). -/
def jsLtOptQ : Option ℚ → Option ℚ → Bool
  | some a, some b => a < b
  | _, _ => false

/-- The comparator of source `sortOnX` (`chart-parsing.ts`): a `Date` x first
(`===` between two distinct `Date` objects is reference equality and is
modelled as false, since the pipeline never places the same point object
twice in one dataset), then numeric subtraction when both x are numbers, then
`localeCompare` when both are truthy, with falsy x sorted first. -/
def cmpX (env : HostEnv) (a b : DataVal) : ℚ :=
  match dataX a with
  | XVal.date ta => if jsLtOptQ ta (xNum env (dataX b)) then -1 else 1
  | xa =>
    if isNumberX xa && isNumberX (dataX b) then xNumPlain xa - xNumPlain (dataX b)
    else if xTruthy xa && xTruthy (dataX b) then localeCompare (xStr xa) (xStr (dataX b))
    else if xTruthy xa = false then -1
    else 1

/-- Source `sortOnX`: sort each dataset's own data by the x comparator. -/
def sortOnX (env : HostEnv) (datasets : List ChartDatasetM) : List ChartDatasetM :=
  datasets.map (fun ds => { ds with data := sortWithCmp (cmpX env) ds.data })

/-- The comparator of source `sortOnDatasetLabels`: `localeCompare` of the two
labels when both are truthy (present and non-empty), `0` otherwise. -/
def datasetLabelCmp (a b : ChartDatasetM) : ℚ :=
  match a.label, b.label with
  | some la, some lb => if la ≠ "" ∧ lb ≠ "" then localeCompare la lb else 0
  | _, _ => 0

/-- Source `sortOnDatasetLabels`: sort the datasets by their labels. -/
def sortOnDatasetLabels (data : ChartDataM) : ChartDataM :=
  { data with datasets := sortWithCmp datasetLabelCmp data.datasets }

/-! ## Color/visibility registries (`processDatasets` / `processLabels`) -/

/-- One registry entry (`GeoChartDatasetOption`): visibility, checkbox state
and the two assigned colors (`none` models `undefined`, possible only with an
empty palette). -/
structure RegistryEntry where
  visible : Bool
  checked : Bool
  backgroundColor : Option String
  borderColor : Option String
deriving DecidableEq

/-- A registry (`GeoChartSelectedDataset`): a string-keyed object in
insertion order, mapping a category name or label value to its entry. -/
abbrev Registry := List (String × RegistryEntry)

/-- Object property read `registry[key]`. -/
def regFind : Registry → String → Option RegistryEntry
  | [], _ => none
  | p :: t, k => if p.1 = k then some p.2 else regFind t k

/-- Object property write `registry[key] = e` for a key already present
(replaces the binding in place, preserving insertion order). -/
def regSet : Registry → String → RegistryEntry → Registry
  | [], _, _ => []
  | p :: t, k, e => (if p.1 = k then (k, e) else p) :: regSet t k e

/-- The ambient `ChartJS.defaults.color` used as fallback when no palette is
configured. -/
def chartJSDefaultsColor : String := "#666"

/-- The body of the per-item loop shared by `processDatasets` and
`processLabels`: read the key from the item, record it in the list of names
seen, insert a fresh entry (visible, checked, next palette colors, advancing
both palette indices) when the key is new, and re-set `visible` when the key
exists but is invisible. -/
def registryLoopStep (propName : String) (pb pbo : Option (List String))
    (acc : Registry × ℕ × ℕ × List String) (item : RecordJS) :
    Registry × ℕ × ℕ × List String :=
  let (reg, bgIdx, bdIdx, names) := acc
  let catName := jsKeyString (getProp item propName)
  let names' := if catName ∈ names then names else names ++ [catName]
  match regFind reg catName with
  | none =>
    (reg ++ [(catName,
      { visible := true, checked := true,
        backgroundColor := getColorFromPalette pb bgIdx chartJSDefaultsColor,
        borderColor := getColorFromPalette pbo bdIdx chartJSDefaultsColor })],
     bgIdx + 1, bdIdx + 1, names')
  | some e =>
    if e.visible = false then
      (regSet reg catName { e with visible := true }, bgIdx, bdIdx, names')
    else (reg, bgIdx, bdIdx, names')

/-- The per-item loop of `processDatasets` / `processLabels` over all items. -/
def registryLoop (propName : String) (pb pbo : Option (List String))
    (items : List RecordJS) (reg : Registry) (bgIdx bdIdx : ℕ) :
    Registry × ℕ × ℕ × List String :=
  items.foldl (registryLoopStep propName pb pbo) (reg, bgIdx, bdIdx, [])

/-- The closing pass of `processDatasets` / `processLabels`: every registry
key not seen among the current items is marked invisible (entries are never
deleted; `checked` and the colors are untouched). -/
def markAbsentInvisible (names : List String) : Registry → Registry
  | [] => []
  | p :: t =>
    (if p.1 ∉ names ∧ p.2.visible then (p.1, { p.2 with visible := false }) else p) ::
      markAbsentInvisible names t

/-- The registry-related component state: the dataset registry (categories),
the data registry (pie/doughnut labels) and the four monotone palette
indices. -/
structure ChartRegState where
  datasetRegistry : Registry
  datasRegistry : Registry
  bgCatIdx : ℕ
  bdCatIdx : ℕ
  bgAxisIdx : ℕ
  bdAxisIdx : ℕ
deriving DecidableEq

/-- Source `processDatasets` (chart component): update the dataset registry
from the current record subset's category values.  A missing item list or a
falsy category property name is a no-op. -/
def processDatasets (items : Option (List RecordJS)) (catPropertyName : Option String)
    (paletteBackgrounds paletteBorders : Option (List String))
    (st : ChartRegState) : ChartRegState :=
  match items, catPropertyName with
  | some its, some propName =>
    if propName = "" then st
    else
      match registryLoop propName paletteBackgrounds paletteBorders its
          st.datasetRegistry st.bgCatIdx st.bdCatIdx with
      | (reg, bg, bd, names) =>
        { st with datasetRegistry := markAbsentInvisible names reg,
                  bgCatIdx := bg, bdCatIdx := bd }
  | _, _ => st

/-- Source `processLabels` (chart component): like `processDatasets` but on
the data registry, and only for pie/doughnut chart types. -/
def processLabels (theChartType : String) (items : Option (List RecordJS))
    (labelPropertyName : Option String)
    (paletteBackgrounds paletteBorders : Option (List String))
    (st : ChartRegState) : ChartRegState :=
  match items, labelPropertyName with
  | some its, some propName =>
    if propName = "" then st
    else if theChartType = "pie" ∨ theChartType = "doughnut" then
      match registryLoop propName paletteBackgrounds paletteBorders its
          st.datasRegistry st.bgAxisIdx st.bdAxisIdx with
      | (reg, bg, bd, names) =>
        { st with datasRegistry := markAbsentInvisible names reg,
                  bgAxisIdx := bg, bdAxisIdx := bd }
    else st
  | _, _ => st

/-- One registry-updating call: either a `processDatasets` call or a
`processLabels` call, with its arguments. -/
inductive RegistryCall where
  | datasets (items : Option (List RecordJS)) (catPropertyName : Option String)
      (paletteBackgrounds paletteBorders : Option (List String))
  | labels (theChartType : String) (items : Option (List RecordJS))
      (labelPropertyName : Option String)
      (paletteBackgrounds paletteBorders : Option (List String))

/-- Application of one registry-updating call to the component state. -/
def applyRegistryCall (st : ChartRegState) : RegistryCall → ChartRegState
  | RegistryCall.datasets items prop pb pbo => processDatasets items prop pb pbo st
  | RegistryCall.labels ct items prop pb pbo => processLabels ct items prop pb pbo st

/-- Application of a sequence of registry-updating calls, in order. -/
def applyRegistryCalls (st : ChartRegState) (calls : List RegistryCall) : ChartRegState :=
  calls.foldl applyRegistryCall st

/-- What registry updates preserve of an existing entry: both colors and the
`checked` flag (only `visible` may change). -/
def entryStable (e e' : RegistryEntry) : Prop :=
  e'.backgroundColor = e.backgroundColor ∧ e'.borderColor = e.borderColor ∧
    e'.checked = e.checked

theorem entryStable_refl (e : RegistryEntry) : entryStable e e := ⟨rfl, rfl, rfl⟩

theorem entryStable_trans {a b c : RegistryEntry} :
    entryStable a b → entryStable b c → entryStable a c := by
  intro h1 h2
  exact ⟨h2.1.trans h1.1, h2.2.1.trans h1.2.1, h2.2.2.trans h1.2.2⟩

theorem regFind_regSet_other {reg : Registry} {k k' : String} {e' : RegistryEntry}
    (h : k ≠ k') : regFind (regSet reg k' e') k = regFind reg k := by
  induction reg with
  | nil => rfl
  | cons p t ih =>
    by_cases hp : p.1 = k'
    · have hk'k : ¬ (k' = k) := fun hh => h hh.symm
      have hpk : ¬ (p.1 = k) := by rw [hp]; exact hk'k
      simp [regSet, regFind, hp, hk'k, hpk, ih]
    · by_cases hk : p.1 = k
      · have hkk' : ¬ (k = k') := fun hh => hp (by rw [hk, hh])
        simp [regSet, regFind, hkk', hp, hk]
      · simp [regSet, regFind, if_neg hp, hk, ih]

theorem regFind_regSet_same {reg : Registry} {k : String} {e₀ e' : RegistryEntry}
    (h : regFind reg k = some e₀) : regFind (regSet reg k e') k = some e' := by
  induction reg with
  | nil => simp [regFind] at h
  | cons p t ih =>
    by_cases hp : p.1 = k
    · simp [regSet, regFind, hp]
    · simp only [regFind, hp, if_false, if_neg] at h
      simp [regSet, regFind, hp, ih h]

theorem regFind_regSet_none {reg : Registry} {k k' : String} {e' : RegistryEntry}
    (h : regFind reg k = none) : regFind (regSet reg k' e') k = none := by
  induction reg with
  | nil => rfl
  | cons p t ih =>
    by_cases hp : p.1 = k
    · simp [regFind, hp] at h
    · simp only [regFind, hp, if_false, if_neg] at h
      by_cases hp' : p.1 = k'
      · have : ¬ (k' = k) := fun hh => hp (hp' ▸ hh ▸ rfl)
        simp [regSet, regFind, hp', this, ih h]
      · simp [regSet, regFind, hp', hp, ih h]

theorem regFind_append {reg l : Registry} {k : String} :
    regFind (reg ++ l) k =
      match regFind reg k with
      | some e => some e
      | none => regFind l k := by
  induction reg with
  | nil => simp [regFind]
  | cons p t ih =>
    by_cases hp : p.1 = k
    · simp [regFind, hp]
    · simp [regFind, hp, ih]

theorem regFind_markAbsentInvisible (names : List String) (reg : Registry)
    (k : String) :
    regFind (markAbsentInvisible names reg) k =
      (regFind reg k).map
        (fun e => if k ∉ names ∧ e.visible then { e with visible := false } else e) := by
  induction reg with
  | nil => rfl
  | cons p t ih =>
    by_cases hp : p.1 = k
    · subst hp
      by_cases hc : p.1 ∉ names ∧ p.2.visible
      · simp [markAbsentInvisible, regFind, hc]
      · simp [markAbsentInvisible, regFind, hc]
    · by_cases hc : p.1 ∉ names ∧ p.2.visible
      · simp [markAbsentInvisible, regFind, hc, hp, ih]
      · simp [markAbsentInvisible, regFind, hc, hp, ih]

theorem registryLoopStep_preserves (propName : String) (pb pbo : Option (List String))
    (reg : Registry) (bg bd : ℕ) (names : List String) (item : RecordJS)
    {k : String} {e : RegistryEntry} (h : regFind reg k = some e) :
    ∃ e', regFind (registryLoopStep propName pb pbo (reg, bg, bd, names) item).1 k = some e' ∧
      entryStable e e' := by
  simp only [registryLoopStep]
  cases hfind : regFind reg (jsKeyString (getProp item propName)) with
  | none =>
    refine ⟨e, ?_, entryStable_refl e⟩
    simp only [regFind_append, h]
  | some e₀ =>
    by_cases hvis : e₀.visible = false
    · simp only [hvis, if_true, if_pos]
      by_cases hk : k = jsKeyString (getProp item propName)
      · subst hk
        rw [h] at hfind
        obtain rfl : e = e₀ := (Option.some.inj hfind)
        exact ⟨{ e with visible := true }, regFind_regSet_same h, ⟨rfl, rfl, rfl⟩⟩
      · exact ⟨e, by rw [regFind_regSet_other hk]; exact h, entryStable_refl e⟩
    · simp only [hvis, if_false, if_neg]
      exact ⟨e, h, entryStable_refl e⟩

theorem registryLoop_foldl_preserves (propName : String) (pb pbo : Option (List String)) :
    ∀ (items : List RecordJS) (acc : Registry × ℕ × ℕ × List String)
      {k : String} {e : RegistryEntry}, regFind acc.1 k = some e →
      ∃ e', regFind (items.foldl (registryLoopStep propName pb pbo) acc).1 k = some e' ∧
        entryStable e e' := by
  intro items
  induction items with
  | nil => intro acc k e h; exact ⟨e, h, entryStable_refl e⟩
  | cons item rest ih =>
    intro acc k e h
    obtain ⟨reg, bg, bd, names⟩ := acc
    obtain ⟨e₁, h₁, hs₁⟩ := registryLoopStep_preserves propName pb pbo reg bg bd names item h
    obtain ⟨e₂, h₂, hs₂⟩ := ih (registryLoopStep propName pb pbo (reg, bg, bd, names) item) h₁
    exact ⟨e₂, h₂, entryStable_trans hs₁ hs₂⟩

theorem registryLoop_preserves (propName : String) (pb pbo : Option (List String))
    (items : List RecordJS) (reg : Registry) (bg bd : ℕ)
    {k : String} {e : RegistryEntry} (h : regFind reg k = some e) :
    ∃ e', regFind (registryLoop propName pb pbo items reg bg bd).1 k = some e' ∧
      entryStable e e' :=
  registryLoop_foldl_preserves propName pb pbo items (reg, bg, bd, []) h

theorem markAbsentInvisible_preserves (names : List String) (reg : Registry)
    {k : String} {e : RegistryEntry} (h : regFind reg k = some e) :
    ∃ e', regFind (markAbsentInvisible names reg) k = some e' ∧ entryStable e e' := by
  rw [regFind_markAbsentInvisible, h]
  by_cases hc : k ∉ names ∧ e.visible
  · exact ⟨{ e with visible := false }, by simp [hc], ⟨rfl, rfl, rfl⟩⟩
  · exact ⟨e, by simp [hc], entryStable_refl e⟩

theorem processDatasets_preserves (items : Option (List RecordJS))
    (prop : Option String) (pb pbo : Option (List String)) (st : ChartRegState)
    {k : String} {e : RegistryEntry}
    (h : regFind st.datasetRegistry k = some e) :
    ∃ e', regFind (processDatasets items prop pb pbo st).datasetRegistry k = some e' ∧
      entryStable e e' := by
  match items, prop with
  | none, _ => exact ⟨e, h, entryStable_refl e⟩
  | some its, none => exact ⟨e, h, entryStable_refl e⟩
  | some its, some propName =>
    by_cases hprop : propName = ""
    · simp only [processDatasets, hprop, if_true, if_pos]
      exact ⟨e, h, entryStable_refl e⟩
    · simp only [processDatasets, hprop, if_false, if_neg]
      rcases hr : registryLoop propName pb pbo its st.datasetRegistry st.bgCatIdx
        st.bdCatIdx with ⟨r, bg2, bd2, ns⟩
      obtain ⟨e₁, h₁, hs₁⟩ := registryLoop_preserves propName pb pbo its
        st.datasetRegistry st.bgCatIdx st.bdCatIdx h
      rw [hr] at h₁
      obtain ⟨e₂, h₂, hs₂⟩ := markAbsentInvisible_preserves ns r h₁
      exact ⟨e₂, h₂, entryStable_trans hs₁ hs₂⟩

theorem processDatasets_datasRegistry (items : Option (List RecordJS))
    (prop : Option String) (pb pbo : Option (List String)) (st : ChartRegState) :
    (processDatasets items prop pb pbo st).datasRegistry = st.datasRegistry := by
  match items, prop with
  | none, _ => rfl
  | some its, none => rfl
  | some its, some propName =>
    by_cases hprop : propName = ""
    · simp [processDatasets, hprop]
    · simp only [processDatasets, hprop, if_false, if_neg]

theorem processLabels_preserves (ct : String) (items : Option (List RecordJS))
    (prop : Option String) (pb pbo : Option (List String)) (st : ChartRegState)
    {k : String} {e : RegistryEntry}
    (h : regFind st.datasRegistry k = some e) :
    ∃ e', regFind (processLabels ct items prop pb pbo st).datasRegistry k = some e' ∧
      entryStable e e' := by
  match items, prop with
  | none, _ => exact ⟨e, h, entryStable_refl e⟩
  | some its, none => exact ⟨e, h, entryStable_refl e⟩
  | some its, some propName =>
    by_cases hprop : propName = ""
    · simp only [processLabels, hprop, if_true, if_pos]
      exact ⟨e, h, entryStable_refl e⟩
    · by_cases hct : ct = "pie" ∨ ct = "doughnut"
      · simp only [processLabels, hprop, if_false, if_neg, hct, if_true, if_pos]
        rcases hr : registryLoop propName pb pbo its st.datasRegistry st.bgAxisIdx
          st.bdAxisIdx with ⟨r, bg2, bd2, ns⟩
        obtain ⟨e₁, h₁, hs₁⟩ := registryLoop_preserves propName pb pbo its
          st.datasRegistry st.bgAxisIdx st.bdAxisIdx h
        rw [hr] at h₁
        obtain ⟨e₂, h₂, hs₂⟩ := markAbsentInvisible_preserves ns r h₁
        exact ⟨e₂, h₂, entryStable_trans hs₁ hs₂⟩
      · simp only [processLabels, hprop, if_false, if_neg, hct]
        exact ⟨e, h, entryStable_refl e⟩

theorem processLabels_datasetRegistry (ct : String) (items : Option (List RecordJS))
    (prop : Option String) (pb pbo : Option (List String)) (st : ChartRegState) :
    (processLabels ct items prop pb pbo st).datasetRegistry = st.datasetRegistry := by
  match items, prop with
  | none, _ => rfl
  | some its, none => rfl
  | some its, some propName =>
    by_cases hprop : propName = ""
    · simp [processLabels, hprop]
    · by_cases hct : ct = "pie" ∨ ct = "doughnut"
      · simp only [processLabels, hprop, if_false, if_neg, hct, if_true, if_pos]
      · simp [processLabels, hprop, hct]

theorem applyRegistryCall_preserves (st : ChartRegState) (call : RegistryCall)
    {k : String} :
    (∀ e, regFind st.datasetRegistry k = some e →
      ∃ e', regFind (applyRegistryCall st call).datasetRegistry k = some e' ∧ entryStable e e') ∧
    (∀ e, regFind st.datasRegistry k = some e →
      ∃ e', regFind (applyRegistryCall st call).datasRegistry k = some e' ∧ entryStable e e') := by
  cases call with
  | datasets items prop pb pbo =>
    constructor
    · intro e h
      exact processDatasets_preserves items prop pb pbo st h
    · intro e h
      rw [show applyRegistryCall st (RegistryCall.datasets items prop pb pbo) =
        processDatasets items prop pb pbo st from rfl,
        processDatasets_datasRegistry]
      exact ⟨e, h, entryStable_refl e⟩
  | labels ct items prop pb pbo =>
    constructor
    · intro e h
      rw [show applyRegistryCall st (RegistryCall.labels ct items prop pb pbo) =
        processLabels ct items prop pb pbo st from rfl,
        processLabels_datasetRegistry]
      exact ⟨e, h, entryStable_refl e⟩
    · intro e h
      exact processLabels_preserves ct items prop pb pbo st h

theorem applyRegistryCalls_preserves (calls : List RegistryCall) :
    ∀ (st : ChartRegState) {k : String},
    (∀ e, regFind st.datasetRegistry k = some e →
      ∃ e', regFind (applyRegistryCalls st calls).datasetRegistry k = some e' ∧
        entryStable e e') ∧
    (∀ e, regFind st.datasRegistry k = some e →
      ∃ e', regFind (applyRegistryCalls st calls).datasRegistry k = some e' ∧
        entryStable e e') := by
  induction calls with
  | nil =>
    intro st k
    exact ⟨fun e h => ⟨e, h, entryStable_refl e⟩, fun e h => ⟨e, h, entryStable_refl e⟩⟩
  | cons call rest ih =>
    intro st k
    constructor
    · intro e h
      obtain ⟨e₁, h₁, hs₁⟩ := (applyRegistryCall_preserves st call).1 e h
      obtain ⟨e₂, h₂, hs₂⟩ := (ih (applyRegistryCall st call)).1 e₁ h₁
      exact ⟨e₂, h₂, entryStable_trans hs₁ hs₂⟩
    · intro e h
      obtain ⟨e₁, h₁, hs₁⟩ := (applyRegistryCall_preserves st call).2 e h
      obtain ⟨e₂, h₂, hs₂⟩ := (ih (applyRegistryCall st call)).2 e₁ h₁
      exact ⟨e₂, h₂, entryStable_trans hs₁ hs₂⟩

/-- C1: registry color stability.  For every sequence of registry-update
calls (`processDatasets` / `processLabels`) over arbitrary record subsets,
once a key is present in a registry with assigned `backgroundColor` and
`borderColor`, every later call leaves the entry present with the same
colors and the same `checked` flag (`entryStable`): entries are never
deleted, only their `visible` flag may change, and inserting entries for
newly-seen keys never changes an existing entry. -/
theorem registry_color_stability (st : ChartRegState) (calls : List RegistryCall)
    (key : String) :
    (∀ e, regFind st.datasetRegistry key = some e →
      ∃ e', regFind (applyRegistryCalls st calls).datasetRegistry key = some e' ∧
        entryStable e e') ∧
    (∀ e, regFind st.datasRegistry key = some e →
      ∃ e', regFind (applyRegistryCalls st calls).datasRegistry key = some e' ∧
        entryStable e e') :=
  applyRegistryCalls_preserves calls st

/-- A concrete registry entry used by the C1 witness. -/
def c1Entry : RegistryEntry :=
  { visible := true, checked := true,
    backgroundColor := some "#111", borderColor := some "#222" }

/-- A concrete component state whose dataset registry holds key `"A"`. -/
def c1State : ChartRegState :=
  { datasetRegistry := [("A", c1Entry)], datasRegistry := [],
    bgCatIdx := 1, bdCatIdx := 1, bgAxisIdx := 0, bdAxisIdx := 0 }

/-- A concrete call sequence: one `processDatasets` call on a record subset
from which key `"A"` is absent. -/
def c1Calls : List RegistryCall :=
  [RegistryCall.datasets (some [[("cat", JSVal.str "B")]]) (some "cat") none none]

/-- Witness for C1 at a concrete state: key `"A"` carrying colors survives a
`processDatasets` call on records in which `"A"` is absent, with colors and
`checked` unchanged. -/
theorem registry_color_stability_witness :
    ∃ e', regFind (applyRegistryCalls c1State c1Calls).datasetRegistry "A" = some e' ∧
      entryStable c1Entry e' :=
  (registry_color_stability c1State c1Calls "A").1 c1Entry rfl

theorem regFind_append_single_ne {reg : Registry} {k k' : String} {e : RegistryEntry}
    (h : regFind reg k' = none) (hne : k ≠ k') :
    regFind (reg ++ [(k, e)]) k' = none := by
  rw [regFind_append, h]
  simp [regFind, hne]

theorem regFind_markAbsentInvisible_none {names : List String} {reg : Registry}
    {k : String} (h : regFind reg k = none) :
    regFind (markAbsentInvisible names reg) k = none := by
  rw [regFind_markAbsentInvisible, h]
  rfl

/-- A single `processDatasets` call whose record subset consists of one record
carrying one new category key. -/
def freshKeyCall (prop : String) (pb pbo : Option (List String)) (k : String) :
    RegistryCall :=
  RegistryCall.datasets (some [[(prop, JSVal.str k)]]) (some prop) pb pbo

/-- A sequence of `processDatasets` calls introducing the given keys one per
call, in order. -/
def freshKeyCalls (prop : String) (pb pbo : Option (List String))
    (ks : List String) : List RegistryCall :=
  ks.map (freshKeyCall prop pb pbo)

theorem processDatasets_single_fresh {prop : String} (hprop : ¬ prop = "")
    (pb pbo : Option (List String)) (k : String) (st : ChartRegState)
    (hfresh : regFind st.datasetRegistry k = none) :
    processDatasets (some [[(prop, JSVal.str k)]]) (some prop) pb pbo st =
      { st with
        datasetRegistry :=
          markAbsentInvisible [k] (st.datasetRegistry ++
            [(k, { visible := true, checked := true,
                   backgroundColor :=
                     getColorFromPalette pb st.bgCatIdx chartJSDefaultsColor,
                   borderColor :=
                     getColorFromPalette pbo st.bdCatIdx chartJSDefaultsColor })]),
        bgCatIdx := st.bgCatIdx + 1, bdCatIdx := st.bdCatIdx + 1 } := by
  simp [processDatasets, hprop, registryLoop, registryLoopStep, getProp,
    jsKeyString, hfresh]

theorem freshKeyCalls_assign {prop : String} (hprop : ¬ prop = "")
    (pb pbo : Option (List String)) :
    ∀ (ks : List String) (st : ChartRegState), ks.Nodup →
      (∀ k ∈ ks, regFind st.datasetRegistry k = none) →
      ∀ (i : ℕ) (hi : i < ks.length),
        ∃ e, regFind (applyRegistryCalls st (freshKeyCalls prop pb pbo ks)).datasetRegistry
            (ks.get ⟨i, hi⟩) = some e ∧
          e.backgroundColor = getColorFromPalette pb (st.bgCatIdx + i) chartJSDefaultsColor ∧
          e.borderColor = getColorFromPalette pbo (st.bdCatIdx + i) chartJSDefaultsColor := by
  intro ks
  induction ks with
  | nil => intro st _ _ i hi; exact absurd hi (by simp)
  | cons k ks ih =>
    intro st hnd hfresh i hi
    have hfreshk : regFind st.datasetRegistry k = none := hfresh k (by simp)
    have hstep : applyRegistryCalls st (freshKeyCalls prop pb pbo (k :: ks)) =
        applyRegistryCalls (applyRegistryCall st (freshKeyCall prop pb pbo k))
          (freshKeyCalls prop pb pbo ks) := rfl
    have hcall : applyRegistryCall st (freshKeyCall prop pb pbo k) =
        { st with
          datasetRegistry :=
            markAbsentInvisible [k] (st.datasetRegistry ++
              [(k, { visible := true, checked := true,
                     backgroundColor :=
                       getColorFromPalette pb st.bgCatIdx chartJSDefaultsColor,
                     borderColor :=
                       getColorFromPalette pbo st.bdCatIdx chartJSDefaultsColor })]),
          bgCatIdx := st.bgCatIdx + 1, bdCatIdx := st.bdCatIdx + 1 } :=
      processDatasets_single_fresh hprop pb pbo k st hfreshk
    cases i with
    | zero =>
      have hget : (k :: ks).get ⟨0, hi⟩ = k := rfl
      rw [hstep, hget]
      have hfind1 : regFind
          (applyRegistryCall st (freshKeyCall prop pb pbo k)).datasetRegistry k =
          some { visible := true, checked := true,
                 backgroundColor :=
                   getColorFromPalette pb st.bgCatIdx chartJSDefaultsColor,
                 borderColor :=
                   getColorFromPalette pbo st.bdCatIdx chartJSDefaultsColor } := by
        rw [hcall]
        show regFind (markAbsentInvisible [k] (st.datasetRegistry ++ _)) k = _
        rw [regFind_markAbsentInvisible, regFind_append, hfreshk]
        simp [regFind]
      obtain ⟨e', h', hs'⟩ := (applyRegistryCalls_preserves
        (freshKeyCalls prop pb pbo ks)
        (applyRegistryCall st (freshKeyCall prop pb pbo k))).1 _ hfind1
      refine ⟨e', h', ?_, ?_⟩
      · rw [hs'.1]; simp
      · rw [hs'.2.1]; simp
    | succ j =>
      have hj : j < ks.length := Nat.lt_of_succ_lt_succ hi
      have hget : (k :: ks).get ⟨j + 1, hi⟩ = ks.get ⟨j, hj⟩ := rfl
      have hkne : k ∉ ks := (List.nodup_cons.mp hnd).1
      have hfresh' : ∀ k' ∈ ks, regFind
          (applyRegistryCall st (freshKeyCall prop pb pbo k)).datasetRegistry k' = none := by
        intro k' hk'
        rw [hcall]
        have hne : k ≠ k' := fun hh => hkne (hh ▸ hk')
        exact regFind_markAbsentInvisible_none
          (regFind_append_single_ne (hfresh k' (by simp [hk'])) hne)
      obtain ⟨e, he, hbg, hbd⟩ := ih (applyRegistryCall st (freshKeyCall prop pb pbo k))
        ((List.nodup_cons.mp hnd).2) hfresh' j hj
      refine ⟨e, ?_, ?_, ?_⟩
      · rw [hstep, hget]; exact he
      · rw [hbg, hcall]
        have : st.bgCatIdx + 1 + j = st.bgCatIdx + (j + 1) := by omega
        rw [show ({ st with
          datasetRegistry :=
            markAbsentInvisible [k] (st.datasetRegistry ++
              [(k, { visible := true, checked := true,
                     backgroundColor :=
                       getColorFromPalette pb st.bgCatIdx chartJSDefaultsColor,
                     borderColor :=
                       getColorFromPalette pbo st.bdCatIdx chartJSDefaultsColor })]),
          bgCatIdx := st.bgCatIdx + 1, bdCatIdx := st.bdCatIdx + 1 } :
            ChartRegState).bgCatIdx = st.bgCatIdx + 1 from rfl, this]
      · rw [hbd, hcall]
        have : st.bdCatIdx + 1 + j = st.bdCatIdx + (j + 1) := by omega
        rw [show ({ st with
          datasetRegistry :=
            markAbsentInvisible [k] (st.datasetRegistry ++
              [(k, { visible := true, checked := true,
                     backgroundColor :=
                       getColorFromPalette pb st.bgCatIdx chartJSDefaultsColor,
                     borderColor :=
                       getColorFromPalette pbo st.bdCatIdx chartJSDefaultsColor })]),
          bgCatIdx := st.bgCatIdx + 1, bdCatIdx := st.bdCatIdx + 1 } :
            ChartRegState).bdCatIdx = st.bdCatIdx + 1 from rfl, this]

theorem getColorFromPalette_mod (pal : List String) (i : ℕ) (c : String) :
    getColorFromPalette (some pal) (i + pal.length) c =
      getColorFromPalette (some pal) i c := by
  simp [getColorFromPalette, Nat.add_mod_right]

/-- C2: palette wrap-around.  For palettes of length `N ≥ 1` and any sequence
of `processDatasets` calls introducing distinct new keys one per call (each
new key advancing the palette index by exactly one), the `(N+i)`-th key
introduced receives the same background and border colors as the `i`-th key
(`getColorFromPalette` looks colors up as `palette[index % N]`). -/
theorem palette_wraparound (prop : String) (hprop : ¬ prop = "")
    (pb pbo : List String) (hlen : pbo.length = pb.length) (hN : 1 ≤ pb.length)
    (ks : List String) (st : ChartRegState) (hnd : ks.Nodup)
    (hfresh : ∀ k ∈ ks, regFind st.datasetRegistry k = none)
    (i : ℕ) (hiN : i < pb.length) (hi : i + pb.length < ks.length) :
    ∃ e e',
      regFind (applyRegistryCalls st
          (freshKeyCalls prop (some pb) (some pbo) ks)).datasetRegistry
        (ks.get ⟨i, lt_of_le_of_lt (Nat.le_add_right i pb.length) hi⟩) = some e ∧
      regFind (applyRegistryCalls st
          (freshKeyCalls prop (some pb) (some pbo) ks)).datasetRegistry
        (ks.get ⟨i + pb.length, hi⟩) = some e' ∧
      e'.backgroundColor = e.backgroundColor ∧ e'.borderColor = e.borderColor := by
  obtain ⟨e, he, hbg, hbd⟩ := freshKeyCalls_assign hprop (some pb) (some pbo) ks st
    hnd hfresh i (lt_of_le_of_lt (Nat.le_add_right i pb.length) hi)
  obtain ⟨e', he', hbg', hbd'⟩ := freshKeyCalls_assign hprop (some pb) (some pbo) ks st
    hnd hfresh (i + pb.length) hi
  refine ⟨e, e', he, he', ?_, ?_⟩
  · rw [hbg', hbg, ← Nat.add_assoc]
    exact getColorFromPalette_mod pb (st.bgCatIdx + i) chartJSDefaultsColor
  · rw [hbd', hbd, ← Nat.add_assoc, ← hlen]
    exact getColorFromPalette_mod pbo (st.bdCatIdx + i) chartJSDefaultsColor

/-- An empty component state (both registries empty, all palette indices 0),
as on chart creation. -/
def emptyRegState : ChartRegState :=
  { datasetRegistry := [], datasRegistry := [],
    bgCatIdx := 0, bdCatIdx := 0, bgAxisIdx := 0, bdAxisIdx := 0 }

/-- Witness for C2: with background palette `["red","green"]` (length 2) and
three distinct fresh keys `a,b,c`, the third key receives the same colors as
the first. -/
theorem palette_wraparound_witness :
    ∃ e e',
      regFind (applyRegistryCalls emptyRegState
          (freshKeyCalls "cat" (some ["red", "green"]) (some ["RED", "GREEN"])
            ["a", "b", "c"])).datasetRegistry "a" = some e ∧
      regFind (applyRegistryCalls emptyRegState
          (freshKeyCalls "cat" (some ["red", "green"]) (some ["RED", "GREEN"])
            ["a", "b", "c"])).datasetRegistry "c" = some e' ∧
      e'.backgroundColor = e.backgroundColor ∧ e'.borderColor = e.borderColor :=
  palette_wraparound "cat" (by decide) ["red", "green"] ["RED", "GREEN"] rfl
    (by decide) ["a", "b", "c"] emptyRegState (by decide)
    (fun k _ => rfl) 0 (by decide) (by decide)

/-! ## Slider record filter (`processLoadingRecordsFilteringFirst`) -/

/-- A slider value as held in component state: a single number or an array of
numbers. -/
inductive SliderInput where
  | singleV (q : ℚ)
  | arrV (l : List ℚ)
deriving DecidableEq

/-- The test `Array.isArray(v) && v.length === 2`, together with reading
`v[0]` and `v[1]`. -/
def twoRange : SliderInput → Option (ℚ × ℚ)
  | SliderInput.arrV [a, b] => some (a, b)
  | _ => none

/-- Non-strict `<=` on JavaScript numbers where `none` models `NaN` (every
comparison against `NaN` is false). -/
def jsLeOptQ : Option ℚ → Option ℚ → Bool
  | some a, some b => a ≤ b
  | _, _ => false

/-- The record-filtering computation of source
`processLoadingRecordsFilteringFirst` (chart component), i.e. the value
`resItemsFinal` it passes on to `processLoadingRecords` and
`setFilteredRecords`: starting from a copy of the records (empty when
undefined), when the chart kind is `line` filter by the x range when it is a
two-element array (by `Date` comparison for a temporal x axis, numerically
otherwise), then filter the remaining items by the y range when it is a
two-element array (numerically); any other chart kind returns the copy
untouched. -/
def filterRecordsForSliders (env : HostEnv) (theInputs : GeoChartConfig)
    (records : Option (List RecordJS)) (xValues yValues : SliderInput) :
    List RecordJS :=
  let base := records.getD []
  if theInputs.chart = ChartKind.line then
    let afterX :=
      match twoRange xValues with
      | some (xa, xb) =>
        if axisIsTemporal theInputs.geochart.xAxis then
          (records.getD []).filter (fun item =>
            jsLeOptQ (some xa)
              (jsDateOf env (getProp item theInputs.geochart.xAxis.property)) &&
            jsLeOptQ (jsDateOf env (getProp item theInputs.geochart.xAxis.property))
              (some xb))
        else
          (records.getD []).filter (fun item =>
            jsLeOptQ (some xa)
              (jsToNumber env (getProp item theInputs.geochart.xAxis.property)) &&
            jsLeOptQ (jsToNumber env (getProp item theInputs.geochart.xAxis.property))
              (some xb))
      | none => base
    match twoRange yValues with
    | some (ya, yb) =>
      afterX.filter (fun item =>
        jsLeOptQ (some ya)
          (jsToNumber env (getProp item theInputs.geochart.yAxis.property)) &&
        jsLeOptQ (jsToNumber env (getProp item theInputs.geochart.yAxis.property))
          (some yb))
    | none => afterX
  else base

/-- C4: filter composition and line-only scope.  Filtering with both
two-element ranges at once equals filtering by the x range and then filtering
that intermediate result by the y range (with the other slider set to any
non-range value); and for every chart kind other than `line` the filtering
step returns the record sequence unchanged regardless of the slider values. -/
theorem filter_composition_and_line_scope (env : HostEnv)
    (theInputs : GeoChartConfig) (recs : List RecordJS) (xa xb ya yb : ℚ)
    (xnr ynr : SliderInput) (hx : twoRange xnr = none) (hy : twoRange ynr = none) :
    (filterRecordsForSliders env theInputs (some recs)
        (SliderInput.arrV [xa, xb]) (SliderInput.arrV [ya, yb]) =
      filterRecordsForSliders env theInputs
        (some (filterRecordsForSliders env theInputs (some recs)
          (SliderInput.arrV [xa, xb]) ynr))
        xnr (SliderInput.arrV [ya, yb])) ∧
    (∀ xv yv : SliderInput, ¬ theInputs.chart = ChartKind.line →
      filterRecordsForSliders env theInputs (some recs) xv yv = recs) := by
  have harr : ∀ a b : ℚ, twoRange (SliderInput.arrV [a, b]) = some (a, b) :=
    fun _ _ => rfl
  constructor
  · by_cases hline : theInputs.chart = ChartKind.line
    · by_cases htemp : axisIsTemporal theInputs.geochart.xAxis
      · simp only [filterRecordsForSliders, hline, if_true, if_pos, htemp, hx, hy,
          harr, Option.getD_some]
      · simp only [filterRecordsForSliders, hline, if_true, if_pos, htemp,
          Bool.false_eq_true, if_false, if_neg, hx, hy, harr, Option.getD_some]
    · simp [filterRecordsForSliders, hline]
  · intro xv yv hline
    simp [filterRecordsForSliders, hline]

/-- A concrete line-chart configuration used by witnesses. -/
def lineCfg : GeoChartConfig :=
  { chart := ChartKind.line,
    category := some { property := "cat" },
    geochart :=
      { xAxis := { property := "t", type := none },
        yAxis := { property := "v", type := none },
        tension := none, borderWidth := none } }

/-- A concrete record set used by witnesses. -/
def witnessRecords : List RecordJS :=
  [[("t", JSVal.num 1), ("v", JSVal.num 5), ("cat", JSVal.str "A")],
   [("t", JSVal.num 2), ("v", JSVal.num 7), ("cat", JSVal.str "A")],
   [("t", JSVal.num 1), ("v", JSVal.num 3), ("cat", JSVal.str "B")]]

/-- Witness for C4 at a concrete input: on a line chart, filtering records by
`x ∈ [1,2]` and `y ∈ [4,8]` at once equals filtering by x and then by y; and
a bar chart ignores the ranges. -/
theorem filter_composition_and_line_scope_witness :
    (filterRecordsForSliders trivialEnv lineCfg (some witnessRecords)
        (SliderInput.arrV [1, 2]) (SliderInput.arrV [4, 8]) =
      filterRecordsForSliders trivialEnv lineCfg
        (some (filterRecordsForSliders trivialEnv lineCfg (some witnessRecords)
          (SliderInput.arrV [1, 2]) (SliderInput.singleV 0)))
        (SliderInput.singleV 0) (SliderInput.arrV [4, 8])) ∧
    (∀ xv yv : SliderInput,
      ¬ ({ lineCfg with chart := ChartKind.bar } : GeoChartConfig).chart = ChartKind.line →
      filterRecordsForSliders trivialEnv { lineCfg with chart := ChartKind.bar }
        (some witnessRecords) xv yv = witnessRecords) :=
  ⟨(filter_composition_and_line_scope trivialEnv lineCfg witnessRecords 1 2 4 8
      (SliderInput.singleV 0) (SliderInput.singleV 0) rfl rfl).1,
   (filter_composition_and_line_scope trivialEnv
      { lineCfg with chart := ChartKind.bar } witnessRecords 1 2 4 8
      (SliderInput.singleV 0) (SliderInput.singleV 0) rfl rfl).2⟩

/-! ## Dataset/series builders (`chart-parsing.ts`) -/

/-- The categorization property name, `""` when no categorization block is
configured. -/
def categoryPropOf (cfg : GeoChartConfig) : String :=
  match cfg.category with
  | some c => c.property
  | none => ""

/-- Source `createDataXYFormat`: read the x value (converted to a `Date` when
the x axis is temporal, carried over raw otherwise) and the raw y value. -/
def createDataXYFormat (env : HostEnv) (chartConfig : GeoChartConfig)
    (attributes : RecordJS) : GeoChartXYData :=
  let valRawX := getProp attributes chartConfig.geochart.xAxis.property
  { x := if axisIsTemporal chartConfig.geochart.xAxis then
        XVal.date (jsDateOf env valRawX)
      else XVal.val valRawX,
    y := getProp attributes chartConfig.geochart.yAxis.property }

/-- Source `createDataset`: an empty dataset with the given label, colors
(only set when truthy), the global border width (when truthy), and — for line
charts only — the stepped and tension settings. -/
def createDataset (chartConfig : GeoChartConfig)
    (backgroundColor borderColor : Option ColorArg) (steps : Option StepsVal)
    (label : Option String) : ChartDatasetM :=
  { label := label
    data := []
    backgroundColor := if colorArgTruthy backgroundColor then backgroundColor else none
    borderColor := if colorArgTruthy borderColor then borderColor else none
    borderWidth :=
      match chartConfig.geochart.borderWidth with
      | some w => if w ≠ 0 then some w else none
      | none => none
    stepped := if chartConfig.chart = ChartKind.line then steps else none
    tension :=
      if chartConfig.chart = ChartKind.line then
        match chartConfig.geochart.tension with
        | some t => if t ≠ 0 then some t else none
        | none => none
      else none }

/-- The error with which the model represents a JavaScript `TypeError` thrown
by dereferencing a property of a missing registry entry. -/
def registryTypeError : String := "TypeError: cannot read properties of undefined"

/-- Push a point onto the data array of the group of the given category
(`categoriesRead[catName].data.push(...)`); the group order is first-seen
order. -/
def groupsPush : List (String × List GeoChartXYData) → String → GeoChartXYData →
    List (String × List GeoChartXYData)
  | [], cat, p => [(cat, [p])]
  | (c, ps) :: t, cat, p =>
    if c = cat then (c, ps ++ [p]) :: t else (c, ps) :: groupsPush t cat p

/-- The record loop of source `createDatasetsLineBar` in the categorized case:
for each record, dereference its category's registry entry (a missing entry
throws), skip unchecked categories, open a new group on first encounter and
push the parsed x/y point onto the category's group. -/
def lineBarGroups (env : HostEnv) (chartConfig : GeoChartConfig)
    (datasetsRegistry : Registry) (catProp : String) :
    List RecordJS → List (String × List GeoChartXYData) →
    Except String (List (String × List GeoChartXYData))
  | [], acc => Except.ok acc
  | rec :: rest, acc =>
    let catName := jsKeyString (getProp rec catProp)
    match regFind datasetsRegistry catName with
    | none => Except.error registryTypeError
    | some entry =>
      if entry.checked then
        lineBarGroups env chartConfig datasetsRegistry catProp rest
          (groupsPush acc catName (createDataXYFormat env chartConfig rec))
      else lineBarGroups env chartConfig datasetsRegistry catProp rest acc

/-- The registry entry's background color as a dataset color argument. -/
def entryBgArg (reg : Registry) (k : String) : Option ColorArg :=
  match regFind reg k with
  | some e => e.backgroundColor.map ColorArg.strC
  | none => none

/-- The registry entry's border color as a dataset color argument. -/
def entryBorderArg (reg : Registry) (k : String) : Option ColorArg :=
  match regFind reg k with
  | some e => e.borderColor.map ColorArg.strC
  | none => none

/-- Source `createDatasetsLineBar`: with a configured categorization, one
dataset per checked category in first-seen order, labelled by the category,
with the registry's colors and one parsed point per record; without
categorization, a single unlabelled dataset holding all records' points. -/
def createDatasetsLineBar (env : HostEnv) (chartConfig : GeoChartConfig)
    (datasetsRegistry : Registry) (steps : Option StepsVal)
    (records : List RecordJS) : Except String ChartDataM :=
  if hasCategoryProp chartConfig then
    match lineBarGroups env chartConfig datasetsRegistry (categoryPropOf chartConfig)
        records [] with
    | Except.error e => Except.error e
    | Except.ok groups =>
      Except.ok
        { labels := [],
          datasets := groups.map (fun g =>
            { createDataset chartConfig (entryBgArg datasetsRegistry g.1)
                (entryBorderArg datasetsRegistry g.1) steps (some g.1) with
              data := g.2.map DataVal.pt }) }
  else
    Except.ok
      { labels := [],
        datasets :=
          [{ createDataset chartConfig none none steps none with
             data := records.map (fun r => DataVal.pt (createDataXYFormat env chartConfig r)) }] }

/-- The label-collection loop of source `createDatasetsPieDoughnut`: the
distinct x-axis values of the records, in first-seen order. -/
def pieLabels (chartConfig : GeoChartConfig) (records : List RecordJS) : List JSVal :=
  records.foldl (fun labels rec =>
    let valX := getProp rec chartConfig.geochart.xAxis.property
    if valX ∈ labels then labels else labels ++ [valX]) []

/-- The shared background palette of source `createDatasetsPieDoughnut`: one
registry background color per label (a missing entry throws). -/
def pieBackgroundPalette (datasRegistry : Registry) :
    List JSVal → Except String (List (Option String))
  | [] => Except.ok []
  | l :: t =>
    match regFind datasRegistry (jsKeyString l) with
    | none => Except.error registryTypeError
    | some e => (pieBackgroundPalette datasRegistry t).map (fun rest => e.backgroundColor :: rest)

/-- The category-collection loop of source `createDatasetsPieDoughnut`: the
checked categories in first-seen order (a missing registry entry throws). -/
def pieCheckedCats (datasetsRegistry : Registry) (catProp : String) :
    List RecordJS → List String → Except String (List String)
  | [], acc => Except.ok acc
  | rec :: rest, acc =>
    let catName := jsKeyString (getProp rec catProp)
    match regFind datasetsRegistry catName with
    | none => Except.error registryTypeError
    | some entry =>
      if entry.checked ∧ catName ∉ acc then
        pieCheckedCats datasetsRegistry catProp rest (acc ++ [catName])
      else pieCheckedCats datasetsRegistry catProp rest acc

/-- JavaScript strict equality `value === datasetLabel` between a record's
category value and a dataset label (`undefined === undefined` is true; a
non-string value is never strictly equal to a string label). -/
def jsStrictEqLabel (v : JSVal) (label : Option String) : Bool :=
  match v, label with
  | JSVal.str s, some l => s = l
  | JSVal.undef, none => true
  | _, _ => false

/-- Source `createDataCompressedForPieDoughnut`: a data array of the labels'
length pre-filled with nulls; records (filtered to the dataset's category
when one is configured) write their y value at their x value's label index
(an absent label index writes out of bounds and leaves the array unchanged,
as the `-1` property write does in JavaScript). -/
def createDataCompressedForPieDoughnut (chartConfig : GeoChartConfig)
    (datasetLabel : Option String) (labels : List JSVal)
    (records : List RecordJS) : List JSVal :=
  let subRecords :=
    match chartConfig.category with
    | some c => records.filter (fun rec => jsStrictEqLabel (getProp rec c.property) datasetLabel)
    | none => records
  subRecords.foldl (fun newData rec =>
    let valX := getProp rec chartConfig.geochart.xAxis.property
    newData.set (labels.indexOf valX) (getProp rec chartConfig.geochart.yAxis.property))
    (labels.map (fun _ => JSVal.null))

/-- Source `createDatasetsPieDoughnut`: collect the shared label axis, build
the shared background palette from the label registry, then one compressed
dataset per checked category (or a single compressed dataset when
uncategorized). -/
def createDatasetsPieDoughnut (chartConfig : GeoChartConfig)
    (datasetsRegistry datasRegistry : Registry) (records : List RecordJS) :
    Except String ChartDataM :=
  let labels := pieLabels chartConfig records
  match pieBackgroundPalette datasRegistry labels with
  | Except.error e => Except.error e
  | Except.ok palette =>
    if hasCategoryProp chartConfig then
      match pieCheckedCats datasetsRegistry (categoryPropOf chartConfig) records [] with
      | Except.error e => Except.error e
      | Except.ok cats =>
        Except.ok
          { labels := labels,
            datasets := cats.map (fun catName =>
              { createDataset chartConfig (some (ColorArg.arrC palette)) none none
                  (some catName) with
                data := (createDataCompressedForPieDoughnut chartConfig (some catName)
                  labels records).map DataVal.scalar }) }
    else
      Except.ok
        { labels := labels,
          datasets :=
            [{ createDataset chartConfig none none none none with
               data := (createDataCompressedForPieDoughnut chartConfig none
                 labels records).map DataVal.scalar }] }

/-- Source `createDatasets`: dispatch on the chart kind (the `Unsupported
chart type` throw is unreachable, the four kinds being exhaustive). -/
def createDatasets (env : HostEnv) (chartConfig : GeoChartConfig)
    (datasetsRegistry datasRegistry : Registry) (steps : Option StepsVal)
    (records : List RecordJS) : Except String ChartDataM :=
  match chartConfig.chart with
  | ChartKind.line => createDatasetsLineBar env chartConfig datasetsRegistry steps records
  | ChartKind.bar => createDatasetsLineBar env chartConfig datasetsRegistry steps records
  | ChartKind.pie => createDatasetsPieDoughnut chartConfig datasetsRegistry datasRegistry records
  | ChartKind.doughnut => createDatasetsPieDoughnut chartConfig datasetsRegistry datasRegistry records

/-- Source `createChartJSData`: build the datasets when records are present
(a copy of the default data otherwise), sort the datasets by label, and when
the x axis is temporal additionally sort each dataset's data on x. -/
def createChartJSData (env : HostEnv) (chartConfig : GeoChartConfig)
    (datasetsRegistry datasRegistry : Registry) (steps : Option StepsVal)
    (records : Option (List RecordJS)) (defaultData : ChartDataM) :
    Except String ChartDataM :=
  let built : Except String ChartDataM :=
    match records with
    | some recs =>
      if recs.length > 0 then
        createDatasets env chartConfig datasetsRegistry datasRegistry steps recs
      else Except.ok defaultData
    | none => Except.ok defaultData
  match built with
  | Except.error e => Except.error e
  | Except.ok data =>
    let data₁ := sortOnDatasetLabels data
    Except.ok
      (if axisIsTemporal chartConfig.geochart.xAxis then
        { data₁ with datasets := sortOnX env data₁.datasets }
      else data₁)

/-- The dataset registry of the categorized-line-chart scenario: categories
`A` and `B`, both checked, with assigned colors. -/
def c3Registry : Registry :=
  [("A", { visible := true, checked := true,
           backgroundColor := some "#a1", borderColor := some "#a2" }),
   ("B", { visible := true, checked := true,
           backgroundColor := some "#b1", borderColor := some "#b2" })]

/-- C3: categorized line chart scenario.  For records
`[{t:1,v:5,cat:"A"},{t:2,v:7,cat:"A"},{t:1,v:3,cat:"B"}]` with category field
`cat`, x field `t`, y field `v`, chart kind `line` and both categories
checked, the builder produces exactly two series labelled `"A"` and `"B"` in
alphabetical order, series `"A"` holding exactly the points `{x:1,y:5}` and
`{x:2,y:7}` in that order (and series `"B"` the point `{x:1,y:3}`). -/
theorem categorized_line_chart_scenario :
    (createChartJSData trivialEnv lineCfg c3Registry [] none
        (some witnessRecords) { labels := [], datasets := [] }).map
      (fun d => (d.datasets.map (fun ds => ds.label),
                 d.datasets.map (fun ds => ds.data))) =
    Except.ok
      ([some "A", some "B"],
       [[DataVal.pt { x := XVal.val (JSVal.num 1), y := JSVal.num 5 },
         DataVal.pt { x := XVal.val (JSVal.num 2), y := JSVal.num 7 }],
        [DataVal.pt { x := XVal.val (JSVal.num 1), y := JSVal.num 3 }]]) := by
  rfl

/-! ## Datasource fetch lifecycle (`fetchDatasourceItems`) -/

/-- The observable behaviour of one `fetchDatasourceItems` run: the values
successively assigned to the loading flag (`setIsLoadingDatasource`), the
invocations of the caller-supplied error callback (message and underlying
cause), and the promise outcome. -/
structure FetchRun (Ex : Type) where
  loadingTrace : List Bool
  errorCalls : List (String × Ex)
  outcome : Except Ex (List RecordJS)

/-- Source `fetchDatasourceItems` (chart component), with the underlying
fetch's result abstracted as an `Except` value: the `try` block first sets
the loading flag true and awaits the fetch; on success the items are
returned; on failure the `catch` block invokes the error callback with
`'Failed to fetch the data'` and the cause and resolves with `[]` instead of
rethrowing; the `finally` block clears the loading flag on both paths. -/
def fetchDatasourceItems (Ex : Type) (fetchResult : Except Ex (List RecordJS)) :
    FetchRun Ex :=
  match fetchResult with
  | Except.ok items =>
    { loadingTrace := [true, false], errorCalls := [], outcome := Except.ok items }
  | Except.error ex =>
    { loadingTrace := [true, false],
      errorCalls := [("Failed to fetch the data", ex)],
      outcome := Except.ok [] }

/-- C8: fetch failure lifecycle.  For every fetch outcome, the loading flag
is set true before the fetch and cleared afterwards on both paths (the trace
is exactly `[true, false]`); the run never rejects (its outcome is always
`ok`); on success the items are returned with no error callback; on failure
the error callback is invoked exactly once with the descriptive message and
the underlying cause, and an empty record array is returned. -/
theorem fetch_failure_lifecycle (Ex : Type) (fetchResult : Except Ex (List RecordJS)) :
    (fetchDatasourceItems Ex fetchResult).loadingTrace = [true, false] ∧
    (∃ items, (fetchDatasourceItems Ex fetchResult).outcome = Except.ok items) ∧
    (∀ items, fetchResult = Except.ok items →
      (fetchDatasourceItems Ex fetchResult).outcome = Except.ok items ∧
      (fetchDatasourceItems Ex fetchResult).errorCalls = []) ∧
    (∀ ex, fetchResult = Except.error ex →
      (fetchDatasourceItems Ex fetchResult).errorCalls =
        [("Failed to fetch the data", ex)] ∧
      (fetchDatasourceItems Ex fetchResult).outcome = Except.ok []) := by
  cases fetchResult with
  | ok items =>
    refine ⟨rfl, ⟨items, rfl⟩, ?_, ?_⟩
    · intro items' h
      cases h
      exact ⟨rfl, rfl⟩
    · intro ex h
      cases h
  | error ex =>
    refine ⟨rfl, ⟨[], rfl⟩, ?_, ?_⟩
    · intro items' h
      cases h
    · intro ex' h
      cases h
      exact ⟨rfl, rfl⟩

/-- Witness for C8 at a concrete failing fetch: the loading flag lifecycle
completes, the callback receives the message and cause, and the empty array
is returned. -/
theorem fetch_failure_lifecycle_witness :
    (fetchDatasourceItems String (Except.error "network down")).loadingTrace =
      [true, false] ∧
    (fetchDatasourceItems String (Except.error "network down")).errorCalls =
      [("Failed to fetch the data", "network down")] ∧
    (fetchDatasourceItems String (Except.error "network down")).outcome =
      Except.ok [] :=
  ⟨(fetch_failure_lifecycle String (Except.error "network down")).1,
   ((fetch_failure_lifecycle String (Except.error "network down")).2.2.2
      "network down" rfl).1,
   ((fetch_failure_lifecycle String (Except.error "network down")).2.2.2
      "network down" rfl).2⟩

/-! ## Axis range resolver (`processAxes`) -/

/-- Slider configuration of one axis (`display`, optional explicit `min`,
`max`, `step`). -/
structure SliderCfg where
  display : Bool
  min : Option ℚ
  max : Option ℚ
  step : Option ℚ
deriving DecidableEq

/-- The UI options block read by the axis range resolver. -/
structure GeoChartOptionsUI where
  xSlider : Option SliderCfg
  ySlider : Option SliderCfg
deriving DecidableEq

/-- The optional chain `uiOptions?.xSlider?.min`. -/
def uiXMin (ui : Option GeoChartOptionsUI) : Option ℚ :=
  (ui.bind (fun u => u.xSlider)).bind (fun s => s.min)

/-- The optional chain `uiOptions?.xSlider?.max`. -/
def uiXMax (ui : Option GeoChartOptionsUI) : Option ℚ :=
  (ui.bind (fun u => u.xSlider)).bind (fun s => s.max)

/-- The optional chain `uiOptions?.ySlider?.min`. -/
def uiYMin (ui : Option GeoChartOptionsUI) : Option ℚ :=
  (ui.bind (fun u => u.ySlider)).bind (fun s => s.min)

/-- The optional chain `uiOptions?.ySlider?.max`. -/
def uiYMax (ui : Option GeoChartOptionsUI) : Option ℚ :=
  (ui.bind (fun u => u.ySlider)).bind (fun s => s.max)

/-- Truthiness of `uiOptions?.xSlider?.display`. -/
def uiXDisplay (ui : Option GeoChartOptionsUI) : Bool :=
  match ui.bind (fun u => u.xSlider) with
  | some s => s.display
  | none => false

/-- Truthiness of `uiOptions?.ySlider?.display`. -/
def uiYDisplay (ui : Option GeoChartOptionsUI) : Bool :=
  match ui.bind (fun u => u.ySlider) with
  | some s => s.display
  | none => false

/-- The converted x value of one record as scanned by `processAxes`:
`new Date(...).getTime()` for a temporal x axis, the raw value as a number
otherwise (`Math.min`/`Math.max` coerce their arguments; `none` is `NaN`). -/
def axisConvertedX (env : HostEnv) (geochart : GeochartBlock) (r : RecordJS) :
    Option ℚ :=
  if axisIsTemporal geochart.xAxis then jsDateOf env (getProp r geochart.xAxis.property)
  else jsToNumber env (getProp r geochart.xAxis.property)

/-- The converted y value of one record as scanned by `processAxes`. -/
def axisConvertedY (env : HostEnv) (geochart : GeochartBlock) (r : RecordJS) :
    Option ℚ :=
  jsToNumber env (getProp r geochart.yAxis.property)

/-- `Math.min(...values)` over already-coerced arguments (`none` is `NaN` and
poisons the result; the resolver only applies this to non-empty lists). -/
def jsMathMin : List (Option ℚ) → Option ℚ
  | [] => none
  | v :: t =>
    t.foldl (fun acc w =>
      match acc, w with
      | some a, some b => some (Min.min a b)
      | _, _ => none) v

/-- `Math.max(...values)` over already-coerced arguments. -/
def jsMathMax : List (Option ℚ) → Option ℚ
  | [] => none
  | v :: t =>
    t.foldl (fun acc w =>
      match acc, w with
      | some a, some b => some (Max.max a b)
      | _, _ => none) v

/-- `Math.floor` on a possibly-`NaN` number. -/
def jsFloorOpt (o : Option ℚ) : Option ℚ := o.map (fun q => ((⌊q⌋ : ℤ) : ℚ))

/-- `Math.ceil` on a possibly-`NaN` number. -/
def jsCeilOpt (o : Option ℚ) : Option ℚ := o.map (fun q => ((⌈q⌉ : ℤ) : ℚ))

/-- Source `processAxes` (chart component), restricted to its returned value
`[xMinVal, xMaxVal, yMinVal, yMaxVal]` (the slider state writes are not part
of the claims): for each axis whose slider is displayed and whose record
subset is non-empty, when the explicit `min` and `max` are not both given the
missing bounds are computed as `floor(Math.min(...))` / `ceil(Math.max(...))`
over the converted values; the y axis additionally requires `isNumber` of the
first record's y value. -/
def processAxes (env : HostEnv) (geochart : GeochartBlock)
    (uiOptions : Option GeoChartOptionsUI)
    (datasourceItems : Option (List RecordJS)) :
    Option ℚ × Option ℚ × Option ℚ × Option ℚ :=
  let xPair : Option ℚ × Option ℚ :=
    if uiXDisplay uiOptions then
      match datasourceItems with
      | some items =>
        if items.length > 0 then
          if uiXMin uiOptions = none ∨ uiXMax uiOptions = none then
            let values := items.map (axisConvertedX env geochart)
            (match uiXMin uiOptions with
             | some v => some v
             | none => jsFloorOpt (jsMathMin values),
             match uiXMax uiOptions with
             | some v => some v
             | none => jsCeilOpt (jsMathMax values))
          else (uiXMin uiOptions, uiXMax uiOptions)
        else (uiXMin uiOptions, uiXMax uiOptions)
      | none => (uiXMin uiOptions, uiXMax uiOptions)
    else (uiXMin uiOptions, uiXMax uiOptions)
  let yPair : Option ℚ × Option ℚ :=
    if uiYDisplay uiOptions then
      match datasourceItems with
      | some items =>
        match items with
        | [] => (uiYMin uiOptions, uiYMax uiOptions)
        | first :: _ =>
          if isNumber (getProp first geochart.yAxis.property) then
            if uiYMin uiOptions = none ∨ uiYMax uiOptions = none then
              let values := items.map (axisConvertedY env geochart)
              (match uiYMin uiOptions with
               | some v => some v
               | none => jsFloorOpt (jsMathMin values),
               match uiYMax uiOptions with
               | some v => some v
               | none => jsCeilOpt (jsMathMax values))
            else (uiYMin uiOptions, uiYMax uiOptions)
          else (uiYMin uiOptions, uiYMax uiOptions)
      | none => (uiYMin uiOptions, uiYMax uiOptions)
    else (uiYMin uiOptions, uiYMax uiOptions)
  (xPair.1, xPair.2, yPair.1, yPair.2)

/-- `m` is the minimum among a list of converted values. -/
def convertsToMinimum (vals : List (Option ℚ)) (m : ℚ) : Prop :=
  some m ∈ vals ∧ ∀ q : ℚ, some q ∈ vals → m ≤ q

/-- `m` is the maximum among a list of converted values. -/
def convertsToMaximum (vals : List (Option ℚ)) (m : ℚ) : Prop :=
  some m ∈ vals ∧ ∀ q : ℚ, some q ∈ vals → q ≤ m

theorem jsMathMin_spec :
    ∀ (l : List (Option ℚ)), l ≠ [] → (∀ v ∈ l, v.isSome) →
      ∃ m, jsMathMin l = some m ∧ convertsToMinimum l m := by
  have fold_spec : ∀ (t : List (Option ℚ)) (a : ℚ), (∀ v ∈ t, v.isSome) →
      ∃ m, (t.foldl (fun acc w =>
        match acc, w with
        | some a, some b => some (Min.min a b)
        | _, _ => none) (some a)) = some m ∧
        (m = a ∨ some m ∈ t) ∧ m ≤ a ∧ ∀ q : ℚ, some q ∈ t → m ≤ q := by
    intro t
    induction t with
    | nil => intro a _; exact ⟨a, rfl, Or.inl rfl, le_refl a, by simp⟩
    | cons v t ih =>
      intro a hs
      obtain ⟨b, rfl⟩ := Option.isSome_iff_exists.mp (hs v (by simp))
      obtain ⟨m, hm, hmem, hle, hlb⟩ := ih (Min.min a b) (fun w hw => hs w (by simp [hw]))
      refine ⟨m, hm, ?_, ?_, ?_⟩
      · rcases hmem with hma | hmt
        · rcases le_total a b with hab | hba
          · exact Or.inl (by rw [hma, min_eq_left hab])
          · exact Or.inr (by simp [hma, min_eq_right hba])
        · exact Or.inr (by simp [hmt])
      · exact le_trans hle (min_le_left a b)
      · intro q hq
        rcases List.mem_cons.mp hq with hqv | hqt
        · obtain rfl : b = q := by injection hqv.symm
          exact le_trans hle (min_le_right a b)
        · exact hlb q hqt
  intro l hne hs
  match l with
  | [] => exact absurd rfl hne
  | v :: t =>
    obtain ⟨a, rfl⟩ := Option.isSome_iff_exists.mp (hs v (by simp))
    obtain ⟨m, hm, hmem, hle, hlb⟩ := fold_spec t a (fun w hw => hs w (by simp [hw]))
    refine ⟨m, hm, ?_, ?_⟩
    · rcases hmem with rfl | hmt
      · simp
      · simp [hmt]
    · intro q hq
      rcases List.mem_cons.mp hq with hqv | hqt
      · obtain rfl : a = q := by injection hqv.symm
        exact hle
      · exact hlb q hqt

theorem jsMathMax_spec :
    ∀ (l : List (Option ℚ)), l ≠ [] → (∀ v ∈ l, v.isSome) →
      ∃ m, jsMathMax l = some m ∧ convertsToMaximum l m := by
  have fold_spec : ∀ (t : List (Option ℚ)) (a : ℚ), (∀ v ∈ t, v.isSome) →
      ∃ m, (t.foldl (fun acc w =>
        match acc, w with
        | some a, some b => some (Max.max a b)
        | _, _ => none) (some a)) = some m ∧
        (m = a ∨ some m ∈ t) ∧ a ≤ m ∧ ∀ q : ℚ, some q ∈ t → q ≤ m := by
    intro t
    induction t with
    | nil => intro a _; exact ⟨a, rfl, Or.inl rfl, le_refl a, by simp⟩
    | cons v t ih =>
      intro a hs
      obtain ⟨b, rfl⟩ := Option.isSome_iff_exists.mp (hs v (by simp))
      obtain ⟨m, hm, hmem, hle, hub⟩ := ih (Max.max a b) (fun w hw => hs w (by simp [hw]))
      refine ⟨m, hm, ?_, ?_, ?_⟩
      · rcases hmem with hma | hmt
        · rcases le_total a b with hab | hba
          · exact Or.inr (by simp [hma, max_eq_right hab])
          · exact Or.inl (by rw [hma, max_eq_left hba])
        · exact Or.inr (by simp [hmt])
      · exact le_trans (le_max_left a b) hle
      · intro q hq
        rcases List.mem_cons.mp hq with hqv | hqt
        · obtain rfl : b = q := by injection hqv.symm
          exact le_trans (le_max_right a b) hle
        · exact hub q hqt
  intro l hne hs
  match l with
  | [] => exact absurd rfl hne
  | v :: t =>
    obtain ⟨a, rfl⟩ := Option.isSome_iff_exists.mp (hs v (by simp))
    obtain ⟨m, hm, hmem, hle, hub⟩ := fold_spec t a (fun w hw => hs w (by simp [hw]))
    refine ⟨m, hm, ?_, ?_⟩
    · rcases hmem with rfl | hmt
      · simp
      · simp [hmt]
    · intro q hq
      rcases List.mem_cons.mp hq with hqv | hqt
      · obtain rfl : a = q := by injection hqv.symm
        exact hle
      · exact hub q hqt

theorem processAxes_x (env : HostEnv) (geochart : GeochartBlock)
    (ui : Option GeoChartOptionsUI) (l : List RecordJS)
    (hd : uiXDisplay ui = true) (hl : l ≠ []) :
    ((processAxes env geochart ui (some l)).1,
     (processAxes env geochart ui (some l)).2.1) =
      (if uiXMin ui = none ∨ uiXMax ui = none then
        (match uiXMin ui with
         | some v => some v
         | none => jsFloorOpt (jsMathMin (l.map (axisConvertedX env geochart))),
         match uiXMax ui with
         | some v => some v
         | none => jsCeilOpt (jsMathMax (l.map (axisConvertedX env geochart))))
      else (uiXMin ui, uiXMax ui)) := by
  have hlen : l.length > 0 := List.length_pos.mpr hl
  simp only [processAxes, hd, if_true, if_pos, hlen]

theorem processAxes_y (env : HostEnv) (geochart : GeochartBlock)
    (ui : Option GeoChartOptionsUI) (first : RecordJS) (rest : List RecordJS)
    (hd : uiYDisplay ui = true)
    (hnum : isNumber (getProp first geochart.yAxis.property) = true) :
    ((processAxes env geochart ui (some (first :: rest))).2.2.1,
     (processAxes env geochart ui (some (first :: rest))).2.2.2) =
      (if uiYMin ui = none ∨ uiYMax ui = none then
        (match uiYMin ui with
         | some v => some v
         | none =>
           jsFloorOpt (jsMathMin ((first :: rest).map (axisConvertedY env geochart))),
         match uiYMax ui with
         | some v => some v
         | none =>
           jsCeilOpt (jsMathMax ((first :: rest).map (axisConvertedY env geochart))))
      else (uiYMin ui, uiYMax ui)) := by
  simp only [processAxes, hd, if_true, if_pos, hnum]

theorem processAxes_empty (env : HostEnv) (geochart : GeochartBlock)
    (ui : Option GeoChartOptionsUI) (items : Option (List RecordJS))
    (h : items = none ∨ items = some []) :
    processAxes env geochart ui items = (uiXMin ui, uiXMax ui, uiYMin ui, uiYMax ui) := by
  rcases h with rfl | rfl
  · by_cases hx : uiXDisplay ui
    · by_cases hy : uiYDisplay ui
      · simp [processAxes, hx, hy]
      · simp [processAxes, hx, hy]
    · by_cases hy : uiYDisplay ui
      · simp [processAxes, hx, hy]
      · simp [processAxes, hx, hy]
  · by_cases hx : uiXDisplay ui
    · by_cases hy : uiYDisplay ui
      · simp [processAxes, hx, hy]
      · simp [processAxes, hx, hy]
    · by_cases hy : uiYDisplay ui
      · simp [processAxes, hx, hy]
      · simp [processAxes, hx, hy]

theorem axisPair_spec (vals : List (Option ℚ)) (hne : vals ≠ [])
    (hs : ∀ v ∈ vals, v.isSome) (min0 max0 lo hi : Option ℚ)
    (hpair : (lo, hi) =
      if min0 = none ∨ max0 = none then
        (match min0 with
         | some v => some v
         | none => jsFloorOpt (jsMathMin vals),
         match max0 with
         | some v => some v
         | none => jsCeilOpt (jsMathMax vals))
      else (min0, max0)) :
    (∀ v, min0 = some v → lo = some v) ∧
    (min0 = none → ∃ m, lo = some ((⌊m⌋ : ℤ) : ℚ) ∧ convertsToMinimum vals m) ∧
    (∀ v, max0 = some v → hi = some v) ∧
    (max0 = none → ∃ m, hi = some ((⌈m⌉ : ℤ) : ℚ) ∧ convertsToMaximum vals m) := by
  by_cases hcond : min0 = none ∨ max0 = none
  · rw [if_pos hcond] at hpair
    have hlo := congrArg Prod.fst hpair
    have hhi := congrArg Prod.snd hpair
    simp only [] at hlo hhi
    refine ⟨?_, ?_, ?_, ?_⟩
    · intro v hv
      rw [hlo, hv]
    · intro hmin
      obtain ⟨m, hm, hmin'⟩ := jsMathMin_spec vals hne hs
      exact ⟨m, by rw [hlo, hmin]; simp [jsFloorOpt, hm], hmin'⟩
    · intro v hv
      rw [hhi, hv]
    · intro hmax
      obtain ⟨m, hm, hmax'⟩ := jsMathMax_spec vals hne hs
      exact ⟨m, by rw [hhi, hmax]; simp [jsCeilOpt, hm], hmax'⟩
  · rw [if_neg hcond] at hpair
    push_neg at hcond
    have hlo := congrArg Prod.fst hpair
    have hhi := congrArg Prod.snd hpair
    simp only [] at hlo hhi
    refine ⟨?_, ?_, ?_, ?_⟩
    · intro v hv; rw [hlo, hv]
    · intro hmin; exact absurd hmin (Option.ne_none_iff_isSome.mpr
        (by rw [hmin] at hcond; exact absurd rfl hcond.1))
    · intro v hv; rw [hhi, hv]
    · intro hmax; exact absurd hmax (fun hh => hcond.2 hh)

theorem isNumber_toNumber_isSome (env : HostEnv) {v : JSVal}
    (h : isNumber v = true) : (jsToNumber env v).isSome := by
  cases v <;> simp [isNumber, jsToNumber] at h ⊢

/-- The geochart block of the axis-resolver examples: x field `t`, y field
`v`, both linear. -/
def c7Geochart : GeochartBlock :=
  { xAxis := { property := "t", type := none },
    yAxis := { property := "v", type := none },
    tension := none, borderWidth := none }

/-- UI options with the x slider displayed, an explicit `min` of 10 and no
explicit `max`. -/
def c7UiExplicitMin : GeoChartOptionsUI :=
  { xSlider := some { display := true, min := some 10, max := none, step := none },
    ySlider := none }

/-- Counterexample to C7 as stated: with the x slider displayed, an explicit
`min` of 10, no explicit `max`, and records whose converted x values have
minimum 1, the claim (both bounds are floor/ceil over the record values
whenever min and max are not both given) predicts an x lower bound of
`floor(1) = 1`, but `processAxes` returns the explicit 10: an explicitly
given bound is kept, only the missing bound is computed. -/
theorem axis_range_explicit_min_counterexample :
    (processAxes trivialEnv c7Geochart (some c7UiExplicitMin)
      (some witnessRecords)).1 = some 10 ∧
    convertsToMinimum
      (witnessRecords.map (axisConvertedX trivialEnv c7Geochart)) 1 ∧
    ¬ (processAxes trivialEnv c7Geochart (some c7UiExplicitMin)
      (some witnessRecords)).1 = some ((⌊(1 : ℚ)⌋ : ℤ) : ℚ) := by
  refine ⟨rfl, ⟨?_, ?_⟩, ?_⟩
  · show some (1 : ℚ) ∈ [some (1 : ℚ), some 2, some 1]
    simp
  · intro q hq
    have : some q ∈ [some (1 : ℚ), some 2, some 1] := hq
    rcases List.mem_cons.mp this with h1 | h2
    · obtain rfl : (1 : ℚ) = q := by injection h1.symm
      exact le_refl 1
    · rcases List.mem_cons.mp h2 with h1 | h2
      · obtain rfl : (2 : ℚ) = q := by injection h1.symm
        norm_num
      · rcases List.mem_cons.mp h2 with h1 | h2
        · obtain rfl : (1 : ℚ) = q := by injection h1.symm
          exact le_refl 1
        · exact absurd h2 (by simp)
  · intro h
    have : (10 : ℚ) = ((⌊(1 : ℚ)⌋ : ℤ) : ℚ) := by
      have := (rfl :
        (processAxes trivialEnv c7Geochart (some c7UiExplicitMin)
          (some witnessRecords)).1 = some 10).symm.trans h
      injection this
    norm_num at this

/-- C7 (amended): axis range resolution.  For each axis whose slider display
is enabled and whose record subset is non-empty, each bound that is not
explicitly given in configuration is `floor` of the minimum (respectively
`ceil` of the maximum) over the converted field values, while an explicitly
given bound is returned unchanged (for the y axis under the `isNumber` guard
on the record values); when the record subset is empty or missing, the bounds
are exactly the configured values, in particular undefined whenever not
explicitly given. -/
theorem axis_range_resolution (env : HostEnv) (geochart : GeochartBlock)
    (ui : Option GeoChartOptionsUI) :
    (∀ items : Option (List RecordJS), (items = none ∨ items = some []) →
      processAxes env geochart ui items =
        (uiXMin ui, uiXMax ui, uiYMin ui, uiYMax ui)) ∧
    (∀ l : List RecordJS, l ≠ [] → uiXDisplay ui = true →
      (∀ r ∈ l, (axisConvertedX env geochart r).isSome) →
      ((∀ v, uiXMin ui = some v →
          (processAxes env geochart ui (some l)).1 = some v) ∧
       (uiXMin ui = none → ∃ m,
          (processAxes env geochart ui (some l)).1 = some ((⌊m⌋ : ℤ) : ℚ) ∧
          convertsToMinimum (l.map (axisConvertedX env geochart)) m) ∧
       (∀ v, uiXMax ui = some v →
          (processAxes env geochart ui (some l)).2.1 = some v) ∧
       (uiXMax ui = none → ∃ m,
          (processAxes env geochart ui (some l)).2.1 = some ((⌈m⌉ : ℤ) : ℚ) ∧
          convertsToMaximum (l.map (axisConvertedX env geochart)) m))) ∧
    (∀ l : List RecordJS, l ≠ [] → uiYDisplay ui = true →
      (∀ r ∈ l, isNumber (getProp r geochart.yAxis.property) = true) →
      ((∀ v, uiYMin ui = some v →
          (processAxes env geochart ui (some l)).2.2.1 = some v) ∧
       (uiYMin ui = none → ∃ m,
          (processAxes env geochart ui (some l)).2.2.1 = some ((⌊m⌋ : ℤ) : ℚ) ∧
          convertsToMinimum (l.map (axisConvertedY env geochart)) m) ∧
       (∀ v, uiYMax ui = some v →
          (processAxes env geochart ui (some l)).2.2.2 = some v) ∧
       (uiYMax ui = none → ∃ m,
          (processAxes env geochart ui (some l)).2.2.2 = some ((⌈m⌉ : ℤ) : ℚ) ∧
          convertsToMaximum (l.map (axisConvertedY env geochart)) m))) := by
  refine ⟨processAxes_empty env geochart ui, ?_, ?_⟩
  · intro l hl hd hconv
    have hne : l.map (axisConvertedX env geochart) ≠ [] := by
      intro hh
      exact hl (List.map_eq_nil.mp hh)
    have hs : ∀ v ∈ l.map (axisConvertedX env geochart), v.isSome := by
      intro v hv
      obtain ⟨r, hr, rfl⟩ := List.mem_map.mp hv
      exact hconv r hr
    exact axisPair_spec _ hne hs (uiXMin ui) (uiXMax ui) _ _
      (processAxes_x env geochart ui l hd hl).symm.symm
  · intro l hl hd hnum
    match l, hl with
    | first :: rest, _ =>
      have hnum1 : isNumber (getProp first geochart.yAxis.property) = true :=
        hnum first (by simp)
      have hne : (first :: rest).map (axisConvertedY env geochart) ≠ [] := by
        simp
      have hs : ∀ v ∈ (first :: rest).map (axisConvertedY env geochart), v.isSome := by
        intro v hv
        obtain ⟨r, hr, rfl⟩ := List.mem_map.mp hv
        exact isNumber_toNumber_isSome env (hnum r hr)
      exact axisPair_spec _ hne hs (uiYMin ui) (uiYMax ui) _ _
        (processAxes_y env geochart ui first rest hd hnum1)

/-- UI options with the x slider displayed and no explicit bounds. -/
def c7UiNoBounds : GeoChartOptionsUI :=
  { xSlider := some { display := true, min := none, max := none, step := none },
    ySlider := none }

/-- Witness for C7 at concrete inputs: with no explicit bounds and records
with x values 1, 2, 1, the computed lower bound is the floor of their
minimum; and with the empty record subset the resolver returns exactly the
configured (undefined) bounds. -/
theorem axis_range_resolution_witness :
    (∃ m, (processAxes trivialEnv c7Geochart (some c7UiNoBounds)
        (some witnessRecords)).1 = some ((⌊m⌋ : ℤ) : ℚ) ∧
      convertsToMinimum
        (witnessRecords.map (axisConvertedX trivialEnv c7Geochart)) m) ∧
    processAxes trivialEnv c7Geochart (some c7UiNoBounds) (some []) =
      (none, none, none, none) :=
  ⟨((axis_range_resolution trivialEnv c7Geochart (some c7UiNoBounds)).2.1
      witnessRecords (by decide) rfl (by decide)).2.1 rfl,
   (axis_range_resolution trivialEnv c7Geochart (some c7UiNoBounds)).1
      (some []) (Or.inr rfl)⟩

/-! ## Lemmas about the pie label axis and the builder loops -/

theorem pieLabels_fold_mono (chartConfig : GeoChartConfig) :
    ∀ (l : List RecordJS) (acc : List JSVal) (v : JSVal), v ∈ acc →
      v ∈ l.foldl (fun labels rec =>
        let valX := getProp rec chartConfig.geochart.xAxis.property
        if valX ∈ labels then labels else labels ++ [valX]) acc := by
  intro l
  induction l with
  | nil => intro acc v hv; exact hv
  | cons rec rest ih =>
    intro acc v hv
    by_cases hx : getProp rec chartConfig.geochart.xAxis.property ∈ acc
    · simpa [hx] using ih acc v hv
    · simpa [hx] using ih (acc ++ [getProp rec chartConfig.geochart.xAxis.property]) v
        (List.mem_append_left _ hv)

theorem pieLabels_mem (chartConfig : GeoChartConfig) :
    ∀ (l : List RecordJS) (acc : List JSVal) (rec : RecordJS), rec ∈ l →
      getProp rec chartConfig.geochart.xAxis.property ∈
        l.foldl (fun labels r =>
          let valX := getProp r chartConfig.geochart.xAxis.property
          if valX ∈ labels then labels else labels ++ [valX]) acc := by
  intro l
  induction l with
  | nil => intro acc rec h; exact absurd h (by simp)
  | cons r rest ih =>
    intro acc rec h
    rcases List.mem_cons.mp h with rfl | hmem
    · by_cases hx : getProp rec chartConfig.geochart.xAxis.property ∈ acc
      · simpa [hx] using pieLabels_fold_mono chartConfig rest acc _ hx
      · simpa [hx] using pieLabels_fold_mono chartConfig rest
          (acc ++ [getProp rec chartConfig.geochart.xAxis.property]) _ (by simp)
    · by_cases hx : getProp r chartConfig.geochart.xAxis.property ∈ acc
      · simpa [hx] using ih acc rec hmem
      · simpa [hx] using ih (acc ++ [getProp r chartConfig.geochart.xAxis.property]) rec hmem

/-- Every record's x value appears in the shared pie label axis. -/
theorem mem_pieLabels (chartConfig : GeoChartConfig) (records : List RecordJS)
    (rec : RecordJS) (h : rec ∈ records) :
    getProp rec chartConfig.geochart.xAxis.property ∈ pieLabels chartConfig records :=
  pieLabels_mem chartConfig records [] rec h

/-- The shared background palette construction succeeds exactly when every
label has an entry in the label registry. -/
theorem pieBackgroundPalette_ok_iff (datasRegistry : Registry) :
    ∀ labels : List JSVal,
      (∃ p, pieBackgroundPalette datasRegistry labels = Except.ok p) ↔
        ∀ l ∈ labels, (regFind datasRegistry (jsKeyString l)).isSome := by
  intro labels
  induction labels with
  | nil => simp [pieBackgroundPalette]
  | cons l t ih =>
    constructor
    · intro ⟨p, hp⟩ l' hl'
      cases hfind : regFind datasRegistry (jsKeyString l) with
      | none => simp [pieBackgroundPalette, hfind] at hp
      | some e =>
        rcases List.mem_cons.mp hl' with rfl | hmem
        · simp [hfind]
        · simp only [pieBackgroundPalette, hfind] at hp
          cases hrest : pieBackgroundPalette datasRegistry t with
          | error err => rw [hrest] at hp; simp [Except.map] at hp
          | ok rest => exact (ih.mp ⟨rest, hrest⟩) l' hmem
    · intro hall
      cases hfind : regFind datasRegistry (jsKeyString l) with
      | none =>
        have := hall l (by simp)
        rw [hfind] at this
        simp at this
      | some e =>
        obtain ⟨rest, hrest⟩ := ih.mpr (fun l' hl' => hall l' (by simp [hl']))
        exact ⟨e.backgroundColor :: rest, by
          simp [pieBackgroundPalette, hfind, hrest, Except.map]⟩

/-- The categorized line/bar record loop succeeds exactly when every record's
category value has an entry in the dataset registry. -/
theorem lineBarGroups_ok_iff (env : HostEnv) (chartConfig : GeoChartConfig)
    (datasetsRegistry : Registry) (catProp : String) :
    ∀ (records : List RecordJS) (acc : List (String × List GeoChartXYData)),
      (∃ g, lineBarGroups env chartConfig datasetsRegistry catProp records acc =
        Except.ok g) ↔
      ∀ rec ∈ records,
        (regFind datasetsRegistry (jsKeyString (getProp rec catProp))).isSome := by
  intro records
  induction records with
  | nil => intro acc; simp [lineBarGroups]
  | cons rec rest ih =>
    intro acc
    constructor
    · intro ⟨g, hg⟩ r hr
      cases hfind : regFind datasetsRegistry (jsKeyString (getProp rec catProp)) with
      | none => simp [lineBarGroups, hfind] at hg
      | some entry =>
        rcases List.mem_cons.mp hr with rfl | hmem
        · simp [hfind]
        · simp only [lineBarGroups, hfind] at hg
          by_cases hch : entry.checked
          · rw [if_pos hch] at hg
            exact (ih _).mp ⟨g, hg⟩ r hmem
          · rw [if_neg hch] at hg
            exact (ih _).mp ⟨g, hg⟩ r hmem
    · intro hall
      cases hfind : regFind datasetsRegistry (jsKeyString (getProp rec catProp)) with
      | none =>
        have := hall rec (by simp)
        rw [hfind] at this
        simp at this
      | some entry =>
        obtain ⟨g, hg⟩ := (ih (if entry.checked then
            groupsPush acc (jsKeyString (getProp rec catProp))
              (createDataXYFormat env chartConfig rec) else acc)).mpr
          (fun r hr => hall r (by simp [hr]))
        refine ⟨g, ?_⟩
        simp only [lineBarGroups, hfind]
        by_cases hch : entry.checked
        · rw [if_pos hch]
          rw [if_pos hch] at hg
          exact hg
        · rw [if_neg hch]
          rw [if_neg hch] at hg
          exact hg

/-- C10: implicit registry-key precondition of the dataset builders.  With a
configured categorization, the line/bar builder completes without raising
precisely when every record's category value is an existing key of the
dataset registry (a missing key makes it throw while dereferencing
`.checked` on `undefined`); the pie/doughnut builder completes only if every
record's x-axis value is an existing key of the label registry, and throws
whenever one is missing (dereferencing `.backgroundColor` on `undefined`
while building the shared palette).  The spec states no such precondition. -/
theorem builder_registry_key_precondition :
    (∀ (env : HostEnv) (chartConfig : GeoChartConfig) (datasetsRegistry : Registry)
       (steps : Option StepsVal) (records : List RecordJS),
      hasCategoryProp chartConfig = true → records ≠ [] →
      ((∃ cd, createDatasetsLineBar env chartConfig datasetsRegistry steps records =
          Except.ok cd) ↔
        ∀ rec ∈ records,
          (regFind datasetsRegistry
            (jsKeyString (getProp rec (categoryPropOf chartConfig)))).isSome)) ∧
    (∀ (chartConfig : GeoChartConfig) (datasetsRegistry datasRegistry : Registry)
       (records : List RecordJS), records ≠ [] →
      (((∃ cd, createDatasetsPieDoughnut chartConfig datasetsRegistry datasRegistry
            records = Except.ok cd) →
        ∀ rec ∈ records,
          (regFind datasRegistry
            (jsKeyString (getProp rec chartConfig.geochart.xAxis.property))).isSome) ∧
       ((∃ rec ∈ records,
          (regFind datasRegistry
            (jsKeyString (getProp rec chartConfig.geochart.xAxis.property))).isSome
              = false) →
        ∃ err, createDatasetsPieDoughnut chartConfig datasetsRegistry datasRegistry
          records = Except.error err))) := by
  constructor
  · intro env cfg dsReg steps records hcat _
    simp only [createDatasetsLineBar, hcat, if_true, if_pos]
    constructor
    · intro ⟨cd, hcd⟩
      cases hg : lineBarGroups env cfg dsReg (categoryPropOf cfg) records [] with
      | error e =>
        rw [hg] at hcd
        exact absurd hcd (by simp)
      | ok g =>
        exact (lineBarGroups_ok_iff env cfg dsReg (categoryPropOf cfg) records []).mp
          ⟨g, hg⟩
    · intro hall
      obtain ⟨g, hg⟩ :=
        (lineBarGroups_ok_iff env cfg dsReg (categoryPropOf cfg) records []).mpr hall
      exact ⟨_, by rw [hg]⟩
  · intro cfg dsReg dataReg records _
    constructor
    · intro ⟨cd, hcd⟩ rec hrec
      cases hpal : pieBackgroundPalette dataReg (pieLabels cfg records) with
      | error e =>
        simp [createDatasetsPieDoughnut, hpal] at hcd
      | ok palette =>
        have hlab := (pieBackgroundPalette_ok_iff dataReg (pieLabels cfg records)).mp
          ⟨palette, hpal⟩
        exact hlab _ (mem_pieLabels cfg records rec hrec)
    · intro ⟨rec, hrec, hmiss⟩
      cases hpal : pieBackgroundPalette dataReg (pieLabels cfg records) with
      | error e =>
        exact ⟨e, by simp [createDatasetsPieDoughnut, hpal]⟩
      | ok palette =>
        have hlab := (pieBackgroundPalette_ok_iff dataReg (pieLabels cfg records)).mp
          ⟨palette, hpal⟩
        have := hlab _ (mem_pieLabels cfg records rec hrec)
        rw [this] at hmiss
        exact absurd hmiss (by simp)

/-- The pie configuration of the uncategorized scenario: x field `x`, y
field `y`. -/
def pieCfg : GeoChartConfig :=
  { chart := ChartKind.pie, category := none,
    geochart :=
      { xAxis := { property := "x", type := none },
        yAxis := { property := "y", type := none },
        tension := none, borderWidth := none } }

/-- A single pie record `{x:"Jan", y:10}`. -/
def pieRecord1 : RecordJS := [("x", JSVal.str "Jan"), ("y", JSVal.num 10)]

/-- Witness for C10 at concrete inputs: with both categories registered the
line/bar builder succeeds, and the pie builder on a record whose x value is
missing from an empty label registry throws. -/
theorem builder_registry_key_precondition_witness :
    (∃ cd, createDatasetsLineBar trivialEnv lineCfg c3Registry none witnessRecords =
      Except.ok cd) ∧
    (∃ err, createDatasetsPieDoughnut pieCfg [] [] [pieRecord1] = Except.error err) :=
  ⟨(builder_registry_key_precondition.1 trivialEnv lineCfg c3Registry none
      witnessRecords rfl (by decide)).mpr (by decide),
   (builder_registry_key_precondition.2 pieCfg [] [] [pieRecord1] (by decide)).2
      ⟨pieRecord1, by simp, rfl⟩⟩

/-! ## Round-trip of the pie/doughnut compressed series (C5) -/

theorem foldl_set_slot (labels : List JSVal) (xf yf : RecordJS → JSVal) :
    ∀ (l : List RecordJS) (init : List JSVal),
      init.length = labels.length →
      (∀ rec ∈ l, xf rec ∈ labels) →
      (∀ rec ∈ l, yf rec ≠ JSVal.null) →
      ∀ i : ℕ,
        ((∃ dv, (l.foldl (fun nd rec => nd.set (labels.indexOf (xf rec)) (yf rec))
            init).get? i = some dv ∧ dv ≠ JSVal.null) ↔
          ((∃ dv, init.get? i = some dv ∧ dv ≠ JSVal.null) ∨
            ∃ rec ∈ l, labels.indexOf (xf rec) = i)) := by
  intro l
  induction l with
  | nil =>
    intro init _ _ _ i
    simp [List.foldl]
  | cons rec rest ih =>
    intro init hlen hmem hy i
    have hidx : labels.indexOf (xf rec) < init.length := by
      rw [hlen]
      exact List.indexOf_lt_length.mpr (hmem rec (by simp))
    have hlen' : (init.set (labels.indexOf (xf rec)) (yf rec)).length = labels.length := by
      rw [List.length_set, hlen]
    have hmem' : ∀ r ∈ rest, xf r ∈ labels := fun r hr => hmem r (by simp [hr])
    have hy' : ∀ r ∈ rest, yf r ≠ JSVal.null := fun r hr => hy r (by simp [hr])
    have hstep := ih (init.set (labels.indexOf (xf rec)) (yf rec)) hlen' hmem' hy' i
    rw [List.foldl_cons, hstep]
    by_cases hieq : labels.indexOf (xf rec) = i
    · subst hieq
      rw [List.get?_set_eq_of_lt _ hidx]
      constructor
      · intro _
        exact Or.inr ⟨rec, by simp⟩
      · intro _
        exact Or.inl ⟨yf rec, rfl, hy rec (by simp)⟩
    · rw [List.get?_set_ne _ _ hieq]
      constructor
      · intro h
        rcases h with h | ⟨r, hr, hri⟩
        · exact Or.inl h
        · exact Or.inr ⟨r, by simp [hr], hri⟩
      · intro h
        rcases h with h | ⟨r, hr, hri⟩
        · exact Or.inl h
        · rcases List.mem_cons.mp hr with rfl | hrrest
          · exact absurd hri hieq
          · exact Or.inr ⟨r, hrrest, hri⟩

theorem compress_slot_iff (chartConfig : GeoChartConfig) (c : CategoryCfg)
    (hcat : chartConfig.category = some c) (catLabel : String)
    (records : List RecordJS)
    (hy : ∀ rec ∈ records,
      jsStrictEqLabel (getProp rec c.property) (some catLabel) = true →
      getProp rec chartConfig.geochart.yAxis.property ≠ JSVal.null)
    (i : ℕ) :
    (∃ dv, (createDataCompressedForPieDoughnut chartConfig (some catLabel)
        (pieLabels chartConfig records) records).get? i = some dv ∧
      dv ≠ JSVal.null) ↔
    ∃ rec ∈ records,
      jsStrictEqLabel (getProp rec c.property) (some catLabel) = true ∧
      (pieLabels chartConfig records).indexOf
        (getProp rec chartConfig.geochart.xAxis.property) = i := by
  have hunfold : createDataCompressedForPieDoughnut chartConfig (some catLabel)
      (pieLabels chartConfig records) records =
      (records.filter (fun rec =>
        jsStrictEqLabel (getProp rec c.property) (some catLabel))).foldl
        (fun nd rec =>
          nd.set ((pieLabels chartConfig records).indexOf
            (getProp rec chartConfig.geochart.xAxis.property))
            (getProp rec chartConfig.geochart.yAxis.property))
        ((pieLabels chartConfig records).map (fun _ => JSVal.null)) := by
    simp only [createDataCompressedForPieDoughnut, hcat]
  rw [hunfold]
  have hinit : ((pieLabels chartConfig records).map
      (fun _ => JSVal.null)).length = (pieLabels chartConfig records).length := by
    simp
  have hmem : ∀ rec ∈ records.filter (fun rec =>
      jsStrictEqLabel (getProp rec c.property) (some catLabel)),
      getProp rec chartConfig.geochart.xAxis.property ∈ pieLabels chartConfig records := by
    intro rec hrec
    exact mem_pieLabels chartConfig records rec (List.mem_of_mem_filter hrec)
  have hynull : ∀ rec ∈ records.filter (fun rec =>
      jsStrictEqLabel (getProp rec c.property) (some catLabel)),
      getProp rec chartConfig.geochart.yAxis.property ≠ JSVal.null := by
    intro rec hrec
    have := List.of_mem_filter hrec
    exact hy rec (List.mem_of_mem_filter hrec) (by simpa using this)
  rw [foldl_set_slot (pieLabels chartConfig records) _ _ _ _ hinit hmem hynull i]
  constructor
  · intro h
    rcases h with ⟨dv, hdv, hne⟩ | ⟨rec, hrec, hri⟩
    · exfalso
      cases hin : ((pieLabels chartConfig records).map (fun _ => JSVal.null)).get? i with
      | none => rw [hin] at hdv; exact Option.noConfusion hdv
      | some w =>
        rw [hin] at hdv
        obtain rfl := Option.some.inj hdv
        have : w = JSVal.null := by
          have := List.get?_map (fun _ => JSVal.null) (pieLabels chartConfig records) i
          rw [hin] at this
          cases hval : (pieLabels chartConfig records).get? i with
          | none => rw [hval] at this; simp at this
          | some u => rw [hval] at this; simpa using this
        exact hne this
    · exact ⟨rec, List.mem_of_mem_filter hrec, by simpa using List.of_mem_filter hrec, hri⟩
  · intro ⟨rec, hrec, hmatch, hri⟩
    exact Or.inr ⟨rec, List.mem_filter.mpr ⟨hrec, by simpa using hmatch⟩, hri⟩

theorem pie_builder_categorized (chartConfig : GeoChartConfig) (c : CategoryCfg)
    (hcat : chartConfig.category = some c) (hprop : ¬ c.property = "")
    (datasetsRegistry datasRegistry : Registry) (records : List RecordJS)
    (cd : ChartDataM)
    (hok : createDatasetsPieDoughnut chartConfig datasetsRegistry datasRegistry
      records = Except.ok cd) :
    cd.labels = pieLabels chartConfig records ∧
    ∀ ds ∈ cd.datasets, ∃ catName : String, ds.label = some catName ∧
      ds.data = (createDataCompressedForPieDoughnut chartConfig (some catName)
        (pieLabels chartConfig records) records).map DataVal.scalar := by
  have hcatp : hasCategoryProp chartConfig = true := by
    simp [hasCategoryProp, hcat, hprop]
  cases hpal : pieBackgroundPalette datasRegistry (pieLabels chartConfig records) with
  | error e => simp [createDatasetsPieDoughnut, hpal] at hok
  | ok palette =>
    cases hcats : pieCheckedCats datasetsRegistry (categoryPropOf chartConfig)
        records [] with
    | error e => simp [createDatasetsPieDoughnut, hpal, hcatp, hcats] at hok
    | ok cats =>
      have hcd : cd =
          { labels := pieLabels chartConfig records,
            datasets := cats.map (fun catName =>
              { createDataset chartConfig (some (ColorArg.arrC palette)) none none
                  (some catName) with
                data := (createDataCompressedForPieDoughnut chartConfig (some catName)
                  (pieLabels chartConfig records) records).map DataVal.scalar }) } := by
        have := hok
        simp only [createDatasetsPieDoughnut, hpal, hcatp, if_true, if_pos, hcats] at this
        exact (Except.ok.inj this).symm
      subst hcd
      refine ⟨rfl, ?_⟩
      intro ds hds
      obtain ⟨catName, _, rfl⟩ := List.mem_map.mp hds
      exact ⟨catName, rfl, rfl⟩

/-- C5 (amended): pie/doughnut round-trip of compressed series.  For every
record set and configured categorization, provided every record of the
category carries a non-null y value, the set of label-axis values at indices
where the category's compressed series holds a non-null value is exactly the
set of x-axis field values occurring among the category's records. -/
theorem pie_roundtrip_labels (chartConfig : GeoChartConfig) (c : CategoryCfg)
    (hcat : chartConfig.category = some c) (hprop : ¬ c.property = "")
    (datasetsRegistry datasRegistry : Registry) (records : List RecordJS)
    (cd : ChartDataM) (ds : ChartDatasetM) (catLabel : String)
    (hok : createDatasetsPieDoughnut chartConfig datasetsRegistry datasRegistry
      records = Except.ok cd)
    (hds : ds ∈ cd.datasets) (hlab : ds.label = some catLabel)
    (hy : ∀ rec ∈ records,
      jsStrictEqLabel (getProp rec c.property) (some catLabel) = true →
      getProp rec chartConfig.geochart.yAxis.property ≠ JSVal.null) :
    ∀ v : JSVal,
      (∃ i, cd.labels.get? i = some v ∧
        ∃ dv, ds.data.get? i = some dv ∧ dv ≠ DataVal.scalar JSVal.null) ↔
      (∃ rec ∈ records,
        jsStrictEqLabel (getProp rec c.property) (some catLabel) = true ∧
        getProp rec chartConfig.geochart.xAxis.property = v) := by
  obtain ⟨hlabels, hchar⟩ :=
    pie_builder_categorized chartConfig c hcat hprop datasetsRegistry datasRegistry
      records cd hok
  obtain ⟨catName, hlabName, hdata⟩ := hchar ds hds
  have hEq : catName = catLabel := Option.some.inj (hlabName.symm.trans hlab)
  rw [hEq] at hdata
  intro v
  constructor
  · intro ⟨i, hiv, dv, hdv, hne⟩
    rw [hdata, List.get?_map] at hdv
    have hslot : ∃ w, (createDataCompressedForPieDoughnut chartConfig (some catLabel)
        (pieLabels chartConfig records) records).get? i = some w ∧ w ≠ JSVal.null := by
      cases hw : (createDataCompressedForPieDoughnut chartConfig (some catLabel)
          (pieLabels chartConfig records) records).get? i with
      | none => rw [hw] at hdv; simp at hdv
      | some w =>
        rw [hw] at hdv
        simp only [Option.map_some'] at hdv
        obtain rfl := Option.some.inj hdv
        exact ⟨w, rfl, fun hnull => hne (by rw [hnull])⟩
    obtain ⟨rec, hrec, hmatch, hri⟩ :=
      (compress_slot_iff chartConfig c hcat catLabel records hy i).mp hslot
    refine ⟨rec, hrec, hmatch, ?_⟩
    have hx : getProp rec chartConfig.geochart.xAxis.property ∈
        pieLabels chartConfig records := mem_pieLabels chartConfig records rec hrec
    have hgot := List.indexOf_get? hx
    rw [hri] at hgot
    rw [hlabels] at hiv
    exact Option.some.inj (hgot.symm.trans hiv)
  · intro ⟨rec, hrec, hmatch, hxv⟩
    have hx : getProp rec chartConfig.geochart.xAxis.property ∈
        pieLabels chartConfig records := mem_pieLabels chartConfig records rec hrec
    refine ⟨(pieLabels chartConfig records).indexOf
      (getProp rec chartConfig.geochart.xAxis.property), ?_, ?_⟩
    · rw [hlabels, List.indexOf_get? hx, hxv]
    · obtain ⟨w, hw, hwne⟩ :=
        (compress_slot_iff chartConfig c hcat catLabel records hy _).mpr
          ⟨rec, hrec, hmatch, rfl⟩
      rw [hdata]
      exact ⟨DataVal.scalar w, by rw [List.get?_map, hw]; rfl,
        fun hh => hwne (by injection hh)⟩

/-- The categorized pie configuration of the C5 examples. -/
def pieCatCfg : GeoChartConfig :=
  { chart := ChartKind.pie, category := some { property := "cat" },
    geochart :=
      { xAxis := { property := "x", type := none },
        yAxis := { property := "y", type := none },
        tension := none, borderWidth := none } }

/-- A dataset registry holding checked category `A`. -/
def c5DsReg : Registry :=
  [("A", { visible := true, checked := true,
           backgroundColor := some "#a1", borderColor := some "#a2" })]

/-- A label registry holding label `Jan`. -/
def c5DataReg : Registry :=
  [("Jan", { visible := true, checked := true,
             backgroundColor := some "#j1", borderColor := some "#j2" })]

/-- A category-A record whose y value is null. -/
def c5NullRecord : RecordJS :=
  [("cat", JSVal.str "A"), ("x", JSVal.str "Jan"), ("y", JSVal.null)]

/-- The dataset the pie builder computes for the null-y record set. -/
def c5NullDs : ChartDatasetM :=
  { label := some "A", data := [DataVal.scalar JSVal.null],
    backgroundColor := some (ColorArg.arrC [some "#j1"]),
    borderColor := none, borderWidth := none, stepped := none, tension := none }

/-- The chart data the pie builder computes for the null-y record set. -/
def c5NullCd : ChartDataM :=
  { labels := [JSVal.str "Jan"], datasets := [c5NullDs] }

/-- Counterexample to C5 as stated: for the record set
`[{cat:"A", x:"Jan", y:null}]` the builder succeeds, the category-A
compressed series is `[null]` (the record's null y value is written into the
slot), so no index holds a non-null value — yet `"Jan"` does occur as the x
value of a category-A record; the claimed set equality fails. -/
theorem pie_roundtrip_null_counterexample :
    ∃ cd, createDatasetsPieDoughnut pieCatCfg c5DsReg c5DataReg [c5NullRecord] =
        Except.ok cd ∧
      ∃ ds ∈ cd.datasets, ds.label = some "A" ∧
      ¬ ((∃ i, cd.labels.get? i = some (JSVal.str "Jan") ∧
           ∃ dv, ds.data.get? i = some dv ∧ dv ≠ DataVal.scalar JSVal.null) ↔
         (∃ rec ∈ [c5NullRecord],
           jsStrictEqLabel (getProp rec "cat") (some "A") = true ∧
           getProp rec "x" = JSVal.str "Jan")) := by
  refine ⟨c5NullCd, rfl, c5NullDs, by simp [c5NullCd], rfl, ?_⟩
  intro hiff
  obtain ⟨i, hi, dv, hdv, hne⟩ := hiff.mpr ⟨c5NullRecord, by simp, rfl, rfl⟩
  match i, hdv with
  | 0, hdv =>
    have : dv = DataVal.scalar JSVal.null := (Option.some.inj hdv).symm
    exact hne this
  | Nat.succ n, hdv => exact Option.noConfusion hdv

/-- A category-A record with a non-null y value. -/
def c5GoodRecord : RecordJS :=
  [("cat", JSVal.str "A"), ("x", JSVal.str "Jan"), ("y", JSVal.num 10)]

/-- The dataset the pie builder computes for the good record set. -/
def c5GoodDs : ChartDatasetM :=
  { label := some "A", data := [DataVal.scalar (JSVal.num 10)],
    backgroundColor := some (ColorArg.arrC [some "#j1"]),
    borderColor := none, borderWidth := none, stepped := none, tension := none }

/-- The chart data the pie builder computes for the good record set. -/
def c5GoodCd : ChartDataM :=
  { labels := [JSVal.str "Jan"], datasets := [c5GoodDs] }

/-- Witness for C5 (amended) at a concrete input: for the single record
`{cat:"A", x:"Jan", y:10}` the round-trip equivalence holds at the value
`"Jan"`. -/
theorem pie_roundtrip_labels_witness :
    (∃ i, c5GoodCd.labels.get? i = some (JSVal.str "Jan") ∧
        ∃ dv, c5GoodDs.data.get? i = some dv ∧ dv ≠ DataVal.scalar JSVal.null) ↔
      (∃ rec ∈ [c5GoodRecord],
        jsStrictEqLabel (getProp rec "cat") (some "A") = true ∧
        getProp rec "x" = JSVal.str "Jan") :=
  pie_roundtrip_labels pieCatCfg { property := "cat" } rfl (by decide)
    c5DsReg c5DataReg [c5GoodRecord] c5GoodCd c5GoodDs
    "A" rfl (by simp [c5GoodCd]) rfl (by decide) (JSVal.str "Jan")

/-! ## Sort postcondition of the builder (C6) -/

/-- The locale order on strings as a proposition: `s` is not after `t`. -/
def strLeJS (s t : String) : Prop := charListLt t.data s.data = false

theorem strLeJS_trans {u v w : String} (h1 : strLeJS u v) (h2 : strLeJS v w) :
    strLeJS u w :=
  charListLt_nlt_trans h2 h1

/-- The label a dataset is sorted under (`""` for a missing label). -/
def labelKey (ds : ChartDatasetM) : String := ds.label.getD ""

/-- A dataset label that the source comparator actually compares: present and
non-empty. -/
def goodLabel (ds : ChartDatasetM) : Prop := ∃ s, ds.label = some s ∧ s ≠ ""

theorem localeCompare_le_zero {la lb : String} (h : localeCompare la lb ≤ 0) :
    strLeJS la lb := by
  by_cases h1 : charListLt la.data lb.data
  · exact charListLt_asymm h1
  · by_cases h2 : charListLt lb.data la.data
    · exfalso
      simp only [localeCompare, h1, if_false, if_neg, h2, if_true, if_pos] at h
      norm_num at h
    · exact eq_false_of_ne_true h2

theorem localeCompare_pos {la lb : String} (h : ¬ localeCompare la lb ≤ 0) :
    strLeJS lb la := by
  by_cases h1 : charListLt la.data lb.data
  · exfalso
    apply h
    simp only [localeCompare, h1, if_true, if_pos]
    norm_num
  · exact eq_false_of_ne_true h1

theorem datasetLabelCmp_good {a b : ChartDatasetM} (ha : goodLabel a)
    (hb : goodLabel b) :
    (datasetLabelCmp a b ≤ 0 → strLeJS (labelKey a) (labelKey b)) ∧
    (¬ datasetLabelCmp a b ≤ 0 → strLeJS (labelKey b) (labelKey a)) := by
  obtain ⟨la, hla, hlane⟩ := ha
  obtain ⟨lb, hlb, hlbne⟩ := hb
  have hcmp : datasetLabelCmp a b = localeCompare la lb := by
    simp [datasetLabelCmp, hla, hlb, hlane, hlbne]
  have hka : labelKey a = la := by simp [labelKey, hla]
  have hkb : labelKey b = lb := by simp [labelKey, hlb]
  rw [hcmp, hka, hkb]
  exact ⟨localeCompare_le_zero, localeCompare_pos⟩

/-- Datasets with present non-empty labels come out of the label sort in
non-decreasing label order. -/
theorem sortOnDatasetLabels_pairwise (data : ChartDataM)
    (hgood : ∀ ds ∈ data.datasets, goodLabel ds) :
    (sortOnDatasetLabels data).datasets.Pairwise
      (fun a b => strLeJS (labelKey a) (labelKey b)) := by
  refine sortWithCmp_pairwise labelKey strLeJS (fun h1 h2 => strLeJS_trans h1 h2) ?_
  intro a ha b hb
  exact datasetLabelCmp_good (hgood a ha) (hgood b hb)

/-- The time value a data element is sorted under (`0` for non-dates, which
the temporal theorems exclude). -/
def dateKey (dv : DataVal) : ℚ :=
  match dataX dv with
  | XVal.date (some t) => t
  | _ => 0

/-- A data element whose x is a valid `Date`. -/
def validDateX (dv : DataVal) : Prop := ∃ t, dataX dv = XVal.date (some t)

theorem cmpX_valid_dates (env : HostEnv) {a b : DataVal} (ha : validDateX a)
    (hb : validDateX b) :
    (cmpX env a b ≤ 0 → dateKey a ≤ dateKey b) ∧
    (¬ cmpX env a b ≤ 0 → dateKey b ≤ dateKey a) := by
  obtain ⟨ta, hta⟩ := ha
  obtain ⟨tb, htb⟩ := hb
  have hcmp : cmpX env a b = if ta < tb then (-1 : ℚ) else 1 := by
    simp [cmpX, hta, htb, xNum, jsLtOptQ]
  have hka : dateKey a = ta := by simp [dateKey, hta]
  have hkb : dateKey b = tb := by simp [dateKey, htb]
  rw [hcmp, hka, hkb]
  by_cases hlt : ta < tb
  · simp only [hlt, if_true, if_pos]
    exact ⟨fun _ => le_of_lt hlt, fun h => absurd (by norm_num) h⟩
  · simp only [hlt, if_false, if_neg]
    exact ⟨fun h => absurd h (by norm_num), fun _ => le_of_not_lt hlt⟩

/-- Data whose x values are all valid dates comes out of the x sort in
non-decreasing time order. -/
theorem sortOnX_data_pairwise (env : HostEnv) (l : List DataVal)
    (hvalid : ∀ dv ∈ l, validDateX dv) :
    (sortWithCmp (cmpX env) l).Pairwise (fun u v => dateKey u ≤ dateKey v) := by
  refine sortWithCmp_pairwise dateKey (fun x y => x ≤ y)
    (fun h1 h2 => le_trans h1 h2) ?_
  intro a ha b hb
  exact cmpX_valid_dates env (hvalid a ha) (hvalid b hb)

theorem groupsPush_prop (K : String → Prop) (Q : GeoChartXYData → Prop) :
    ∀ (acc : List (String × List GeoChartXYData)) (cat : String) (p : GeoChartXYData),
      (∀ g ∈ acc, K g.1 ∧ ∀ q ∈ g.2, Q q) → K cat → Q p →
      ∀ g ∈ groupsPush acc cat p, K g.1 ∧ ∀ q ∈ g.2, Q q := by
  intro acc
  induction acc with
  | nil =>
    intro cat p _ hK hQ g hg
    simp only [groupsPush, List.mem_singleton] at hg
    subst hg
    exact ⟨hK, fun q hq => by
      simp only [List.mem_singleton] at hq
      subst hq
      exact hQ⟩
  | cons hd tl ih =>
    intro cat p hacc hK hQ g hg
    obtain ⟨c, ps⟩ := hd
    simp only [groupsPush] at hg
    by_cases hc : c = cat
    · rw [if_pos hc] at hg
      rcases List.mem_cons.mp hg with rfl | hgt
      · refine ⟨(hacc (c, ps) (by simp)).1, ?_⟩
        intro q hq
        rcases List.mem_append.mp hq with hq1 | hq2
        · exact (hacc (c, ps) (by simp)).2 q hq1
        · rw [List.mem_singleton.mp hq2]
          exact hQ
      · exact hacc g (by simp [hgt])
    · rw [if_neg hc] at hg
      rcases List.mem_cons.mp hg with rfl | hgt
      · exact hacc (c, ps) (by simp)
      · exact ih cat p (fun g' hg' => hacc g' (by simp [hg'])) hK hQ g hgt

theorem lineBarGroups_prop (env : HostEnv) (chartConfig : GeoChartConfig)
    (datasetsRegistry : Registry) (catProp : String) (K : String → Prop)
    (Q : GeoChartXYData → Prop) :
    ∀ (l : List RecordJS) (acc : List (String × List GeoChartXYData))
      (g' : List (String × List GeoChartXYData)),
      (∀ rec ∈ l, K (jsKeyString (getProp rec catProp)) ∧
        Q (createDataXYFormat env chartConfig rec)) →
      (∀ g ∈ acc, K g.1 ∧ ∀ q ∈ g.2, Q q) →
      lineBarGroups env chartConfig datasetsRegistry catProp l acc = Except.ok g' →
      ∀ g ∈ g', K g.1 ∧ ∀ q ∈ g.2, Q q := by
  intro l
  induction l with
  | nil =>
    intro acc g' _ hacc hok
    simp only [lineBarGroups] at hok
    obtain rfl := Except.ok.inj hok
    exact hacc
  | cons rec rest ih =>
    intro acc g' hl hacc hok
    cases hfind : regFind datasetsRegistry (jsKeyString (getProp rec catProp)) with
    | none => simp [lineBarGroups, hfind] at hok
    | some entry =>
      simp only [lineBarGroups, hfind] at hok
      by_cases hch : entry.checked
      · rw [if_pos hch] at hok
        exact ih _ g' (fun r hr => hl r (by simp [hr]))
          (groupsPush_prop K Q acc _ _ hacc (hl rec (by simp)).1 (hl rec (by simp)).2)
          hok
      · rw [if_neg hch] at hok
        exact ih _ g' (fun r hr => hl r (by simp [hr])) hacc hok

/-- Characterization of the categorized line/bar build: every dataset is
labelled by a category value read from some record, and every data element is
the parsed point of some record. -/
theorem createDatasetsLineBar_datasets_char (env : HostEnv)
    (chartConfig : GeoChartConfig) (datasetsRegistry : Registry)
    (steps : Option StepsVal) (records : List RecordJS) (cd : ChartDataM)
    (hcat : hasCategoryProp chartConfig = true)
    (hok : createDatasetsLineBar env chartConfig datasetsRegistry steps records =
      Except.ok cd) :
    ∀ ds ∈ cd.datasets,
      (∃ rec ∈ records,
        ds.label = some (jsKeyString (getProp rec (categoryPropOf chartConfig)))) ∧
      (∀ dv ∈ ds.data, ∃ rec ∈ records,
        dv = DataVal.pt (createDataXYFormat env chartConfig rec)) := by
  intro ds hds
  simp only [createDatasetsLineBar, hcat, if_true, if_pos] at hok
  cases hg : lineBarGroups env chartConfig datasetsRegistry
      (categoryPropOf chartConfig) records [] with
  | error e => rw [hg] at hok; exact absurd hok (by simp)
  | ok groups =>
    rw [hg] at hok
    cases hok
    simp only [] at hds
    obtain ⟨gr, hgr, rfl⟩ := List.mem_map.mp hds
    have hchar := lineBarGroups_prop env chartConfig datasetsRegistry
      (categoryPropOf chartConfig)
      (fun cn => ∃ rec ∈ records, cn = jsKeyString (getProp rec (categoryPropOf chartConfig)))
      (fun p => ∃ rec ∈ records, p = createDataXYFormat env chartConfig rec)
      records [] groups
      (fun r hr => ⟨⟨r, hr, rfl⟩, ⟨r, hr, rfl⟩⟩) (by simp) hg gr hgr
    constructor
    · obtain ⟨rec, hrec, hcn⟩ := hchar.1
      exact ⟨rec, hrec, by simp [createDataset, hcn]⟩
    · intro dv hdv
      simp only [] at hdv
      obtain ⟨p, hp, rfl⟩ := List.mem_map.mp hdv
      obtain ⟨rec, hrec, rfl⟩ := hchar.2 p hp
      exact ⟨rec, hrec, rfl⟩

/-- Characterization of the uncategorized line/bar build: a single unlabelled
dataset whose data elements are the records' parsed points. -/
theorem createDatasetsLineBar_uncat_char (env : HostEnv)
    (chartConfig : GeoChartConfig) (datasetsRegistry : Registry)
    (steps : Option StepsVal) (records : List RecordJS) (cd : ChartDataM)
    (hcat : hasCategoryProp chartConfig = false)
    (hok : createDatasetsLineBar env chartConfig datasetsRegistry steps records =
      Except.ok cd) :
    ∃ d, cd.datasets = [d] ∧
      ∀ dv ∈ d.data, ∃ rec ∈ records,
        dv = DataVal.pt (createDataXYFormat env chartConfig rec) := by
  simp only [createDatasetsLineBar, hcat, Bool.false_eq_true, if_false, if_neg] at hok
  cases hok
  refine ⟨_, rfl, ?_⟩
  intro dv hdv
  simp only [] at hdv
  obtain ⟨rec, hrec, rfl⟩ := List.mem_map.mp hdv
  exact ⟨rec, hrec, rfl⟩

/-- Whether a category value is a non-empty string (the values whose dataset
labels the source comparator actually orders). -/
def goodCatValue : JSVal → Bool
  | JSVal.str s => s ≠ ""
  | _ => false

/-- C6 (amended): sort postcondition of the line/bar builder.  For every
non-empty input record sequence, provided every category value is a non-empty
string (labels that are missing or empty compare as ties and may appear
anywhere), the built datasets are sorted by label under locale string
comparison; and when the x axis is temporal, provided every record's x value
parses to a valid date, every dataset's own data points are in non-decreasing
order of their date value. -/
theorem builder_sort_postcondition (env : HostEnv) (chartConfig : GeoChartConfig)
    (datasetsRegistry datasRegistry : Registry) (steps : Option StepsVal)
    (records : List RecordJS) (defaultData : ChartDataM) (cd : ChartDataM)
    (hkind : chartConfig.chart = ChartKind.line ∨ chartConfig.chart = ChartKind.bar)
    (hne : records ≠ [])
    (hok : createChartJSData env chartConfig datasetsRegistry datasRegistry steps
      (some records) defaultData = Except.ok cd)
    (hgood : hasCategoryProp chartConfig = true →
      ∀ rec ∈ records, goodCatValue (getProp rec (categoryPropOf chartConfig)) = true)
    (hdatesH : axisIsTemporal chartConfig.geochart.xAxis = true →
      ∀ rec ∈ records,
        (jsDateOf env (getProp rec chartConfig.geochart.xAxis.property)).isSome = true) :
    cd.datasets.Pairwise (fun a b => strLeJS (labelKey a) (labelKey b)) ∧
    (axisIsTemporal chartConfig.geochart.xAxis = true →
      ∀ ds ∈ cd.datasets, ds.data.Pairwise (fun u v => dateKey u ≤ dateKey v)) := by
  have hlen : records.length > 0 := List.length_pos.mpr hne
  have hdisp : createDatasets env chartConfig datasetsRegistry datasRegistry steps
      records = createDatasetsLineBar env chartConfig datasetsRegistry steps records := by
    rcases hkind with h | h <;> simp [createDatasets, h]
  simp only [createChartJSData, hlen, if_true, if_pos, hdisp] at hok
  cases hb : createDatasetsLineBar env chartConfig datasetsRegistry steps records with
  | error e =>
    rw [hb] at hok
    exact absurd hok (by simp)
  | ok cd₀ =>
    rw [hb] at hok
    cases hok
    have hgoodlab : hasCategoryProp chartConfig = true →
        ∀ ds ∈ cd₀.datasets, goodLabel ds := by
      intro hcat ds hds
      obtain ⟨⟨rec, hrec, hlab⟩, _⟩ := createDatasetsLineBar_datasets_char env
        chartConfig datasetsRegistry steps records cd₀ hcat hb ds hds
      have hgv := hgood hcat rec hrec
      cases hval : getProp rec (categoryPropOf chartConfig) with
      | str s =>
        rw [hval] at hgv hlab
        refine ⟨s, ?_, ?_⟩
        · simpa [jsKeyString] using hlab
        · simpa [goodCatValue] using hgv
      | num q => rw [hval] at hgv; simp [goodCatValue] at hgv
      | boolV b => rw [hval] at hgv; simp [goodCatValue] at hgv
      | null => rw [hval] at hgv; simp [goodCatValue] at hgv
      | undef => rw [hval] at hgv; simp [goodCatValue] at hgv
    have hvalid : axisIsTemporal chartConfig.geochart.xAxis = true →
        ∀ ds ∈ cd₀.datasets, ∀ dv ∈ ds.data, validDateX dv := by
      intro htemp ds hds dv hdv
      cases hcatv : hasCategoryProp chartConfig with
      | true =>
        obtain ⟨_, hdata⟩ := createDatasetsLineBar_datasets_char env chartConfig
          datasetsRegistry steps records cd₀ hcatv hb ds hds
        obtain ⟨rec, hrec, rfl⟩ := hdata dv hdv
        obtain ⟨t, ht⟩ := Option.isSome_iff_exists.mp (hdatesH htemp rec hrec)
        exact ⟨t, by simp [dataX, createDataXYFormat, htemp, ht]⟩
      | false =>
        obtain ⟨d, hd, hdata⟩ := createDatasetsLineBar_uncat_char env chartConfig
          datasetsRegistry steps records cd₀ hcatv hb
        rw [hd] at hds
        obtain rfl : ds = d := List.mem_singleton.mp hds
        obtain ⟨rec, hrec, rfl⟩ := hdata dv hdv
        obtain ⟨t, ht⟩ := Option.isSome_iff_exists.mp (hdatesH htemp rec hrec)
        exact ⟨t, by simp [dataX, createDataXYFormat, htemp, ht]⟩
    have hpair1 : (sortOnDatasetLabels cd₀).datasets.Pairwise
        (fun a b => strLeJS (labelKey a) (labelKey b)) := by
      cases hcatv : hasCategoryProp chartConfig with
      | true => exact sortOnDatasetLabels_pairwise cd₀ (hgoodlab hcatv)
      | false =>
        obtain ⟨d, hd, _⟩ := createDatasetsLineBar_uncat_char env chartConfig
          datasetsRegistry steps records cd₀ hcatv hb
        show (sortWithCmp datasetLabelCmp cd₀.datasets).Pairwise _
        rw [hd]
        exact List.pairwise_singleton _ d
    cases htemp : axisIsTemporal chartConfig.geochart.xAxis with
    | false =>
      constructor
      · simp only [htemp, Bool.false_eq_true, if_false, if_neg]
        exact hpair1
      · intro h
        exact absurd h (by simp)
    | true =>
      constructor
      · simp only [htemp, if_true, if_pos]
        exact List.Pairwise.map _ (fun a b h => h) hpair1
      · intro _ ds hds
        simp only [htemp, if_true, if_pos] at hds
        obtain ⟨ds', hds', rfl⟩ := List.mem_map.mp hds
        have hmem0 : ds' ∈ cd₀.datasets := mem_sortWithCmp.mp hds'
        exact sortOnX_data_pairwise env ds'.data (hvalid htemp ds' hmem0)

/-- A registry in which categories `B`, `` (empty string) and `A` are all
checked. -/
def c6Registry : Registry :=
  [("B", { visible := true, checked := true,
           backgroundColor := some "#b1", borderColor := some "#b2" }),
   ("", { visible := true, checked := true,
          backgroundColor := some "#e1", borderColor := some "#e2" }),
   ("A", { visible := true, checked := true,
           backgroundColor := some "#c1", borderColor := some "#c2" })]

/-- Records whose category values are `B`, the empty string, and `A`, in
that order. -/
def c6Records : List RecordJS :=
  [[("cat", JSVal.str "B"), ("t", JSVal.num 1), ("v", JSVal.num 1)],
   [("cat", JSVal.str ""), ("t", JSVal.num 2), ("v", JSVal.num 2)],
   [("cat", JSVal.str "A"), ("t", JSVal.num 3), ("v", JSVal.num 3)]]

/-- Counterexample to C6 as stated: with an empty-string category value
between `B` and `A`, the label comparator treats every comparison against the
empty label as a tie (`a.label && b.label` is falsy), the sort leaves the
dataset order `B`, ``, `A` unchanged, and the output datasets are not sorted
by label (`B` precedes `A`). -/
theorem pairwise_label_transfer (l : List ChartDatasetM)
    (hp : l.Pairwise (fun a b => strLeJS (labelKey a) (labelKey b))) :
    (l.map (fun ds => ds.label)).Pairwise
      (fun o1 o2 => strLeJS (o1.getD "") (o2.getD "")) :=
  List.Pairwise.map _ (fun _ _ h => h) hp

theorem builder_sort_empty_label_counterexample :
    ∃ cd, createChartJSData trivialEnv lineCfg c6Registry [] none (some c6Records)
        { labels := [], datasets := [] } = Except.ok cd ∧
      cd.datasets.map (fun ds => ds.label) = [some "B", some "", some "A"] ∧
      ¬ cd.datasets.Pairwise (fun a b => strLeJS (labelKey a) (labelKey b)) := by
  refine ⟨_, rfl, rfl, ?_⟩
  intro hpair
  have h2 := pairwise_label_transfer _ hpair
  have h3 : List.Pairwise (fun o1 o2 : Option String => strLeJS (o1.getD "") (o2.getD ""))
      [some "B", some "", some "A"] := by exact h2
  have hBA := (List.pairwise_cons.mp h3).1 (some "A") (by simp)
  have hBA' : charListLt "A".data "B".data = false := hBA
  exact absurd hBA' (by decide)

/-- Witness for C6 (amended) at a concrete input: the categorized line chart
of the scenario yields datasets sorted by label. -/
theorem builder_sort_postcondition_witness :
    ∃ cd, createChartJSData trivialEnv lineCfg c3Registry [] none
        (some witnessRecords) { labels := [], datasets := [] } = Except.ok cd ∧
      cd.datasets.Pairwise (fun a b => strLeJS (labelKey a) (labelKey b)) := by
  refine ⟨_, rfl, ?_⟩
  exact (builder_sort_postcondition trivialEnv lineCfg c3Registry [] none
    witnessRecords { labels := [], datasets := [] } _ (Or.inl rfl) (by decide) rfl
    (fun _ => by decide) (fun h => absurd h (by decide))).1

end GeoChart
